import Mathlib

set_option maxHeartbeats 1000000

namespace Spec2Proof

/-!  Shallow embedding of the tournament bracket service
     (`services/tournamentService.ts`, file `src/unnamed/part_001`)
     and its data model (`types.ts`).

     Browser local storage is modelled by explicit state passing of the
     stored tournament list.  JS `null`/`undefined` string fields become
     `Option String`; JS numbers in this code are small non-negative
     integers except the seeding arithmetic, which we carry out in `Int`
     to mirror JS subtraction exactly.  -/

/-- Tournament status enum, from `types.ts`. -/
inductive TournamentStatus where
  | DRAFT
  | REGISTRATION_OPEN
  | IN_PROGRESS
  | COMPLETED
  | ARCHIVED
deriving DecidableEq

/-- Player record, from `types.ts` (fields used by the service). -/
structure Player where
  id : String
  gamertag : String := ""
  icon : String := ""
  seed : Nat
  selfReportingPasswordHash : String := ""
deriving DecidableEq

/-- Match record, from `types.ts`.  Optional JS fields get defaults that
    mirror `undefined` (`none` / `false`). -/
structure Match where
  id : String
  roundIndex : Nat
  matchIndex : Nat
  players : List (Option String)
  scores : List Int
  winnerId : Option String := none
  isBye : Bool := false
  nextMatchId : Option String := none
  justCompleted : Bool := false
  isGrandFinals : Bool := false
deriving DecidableEq

/-- Bracket record, from `types.ts`. -/
structure Bracket where
  winners : List (List Match)
deriving DecidableEq

/-- Tournament record, from `types.ts` (fields the service logic reads or
    writes; presentation-only fields are omitted). -/
structure Tournament where
  id : String
  status : TournamentStatus
  players : List Player
  bracket : Option Bracket := none
  adminPasswordHash : String := ""
  announcements : String := ""
deriving DecidableEq

/-- A `Partial<Tournament>` update object: `none` means the key is absent. -/
structure TournamentUpdates where
  id : Option String := none
  status : Option TournamentStatus := none
  players : Option (List Player) := none
  bracket : Option (Option Bracket) := none
  adminPasswordHash : Option String := none
  announcements : Option String := none

/-- JS truthiness of a `string | null | undefined` value: `null`, `undefined`
    and the empty string are falsy. -/
def optTruthy : Option String → Bool
  | none => false
  | some s => !(s == "")

/-- The spread `{ ...t, ...updates }` of `updateTournament`. -/
def applyUpdates (t : Tournament) (u : TournamentUpdates) : Tournament :=
  { id := u.id.getD t.id
    status := u.status.getD t.status
    players := u.players.getD t.players
    bracket := u.bracket.getD t.bracket
    adminPasswordHash := u.adminPasswordHash.getD t.adminPasswordHash
    announcements := u.announcements.getD t.announcements }

/-! ### Seeding order (`getStandardSeedingOrder`, part_001 lines 115-128) -/

/-- Body of the `for (const seed of lastRound) nextRound.push(seed, sum - seed)`
    loop: each seed contributes the pair `[seed, sum - seed]`. -/
def expandSeeds (sum : Int) : List Int → List Int
  | [] => []
  | seed :: rest => seed :: (sum - seed) :: expandSeeds sum rest

/-- One iteration of the `while` loop: `sum = lastRound.length * 2 + 1`. -/
def nextSeedRound (lastRound : List Int) : List Int :=
  expandSeeds ((lastRound.length : Int) * 2 + 1) lastRound

theorem length_expandSeeds (c : Int) (l : List Int) :
    (expandSeeds c l).length = 2 * l.length := by
  induction l with
  | nil => rfl
  | cons a t ih => simp [expandSeeds, ih]; omega

theorem length_nextSeedRound (l : List Int) :
    (nextSeedRound l).length = 2 * l.length := by
  simp [nextSeedRound, length_expandSeeds]

/-- The `while (rounds[rounds.length - 1].length < size)` loop, starting from
    an arbitrary nonempty last round.  The nonemptiness hypothesis records
    that the loop is only entered with `[1, 2]`. -/
def buildSeedOrder (size : Nat) (lastRound : List Int) (h : 0 < lastRound.length) :
    List Int :=
  if hlt : lastRound.length < size then
    buildSeedOrder size (nextSeedRound lastRound)
      (by rw [length_nextSeedRound]; omega)
  else lastRound
termination_by size - lastRound.length
decreasing_by rw [length_nextSeedRound]; omega

/-- `getStandardSeedingOrder` from part_001 lines 115-128. -/
def getStandardSeedingOrder (size : Nat) : List Int :=
  if size < 2 then (if size = 1 then [1] else [])
  else buildSeedOrder size [1, 2] (by decide)

/-! ### Bracket generation (`generateBracket`, part_001 lines 95-194) -/

/-- Match id `` `${roundIndex + 1}W${matchIndex + 1}` `` (round ids `1W1`,
    `1W2`, ..., `2W1`, ...). -/
def matchId (roundIndex matchIndex : Nat) : String :=
  Nat.repr (roundIndex + 1) ++ "W" ++ Nat.repr (matchIndex + 1)

/-- The stable ascending-seed sort `[...players].sort((a, b) => a.seed - b.seed)`. -/
def sortBySeed (players : List Player) : List Player :=
  players.mergeSort (fun a b => decide (a.seed ≤ b.seed))

/-- First-round match `i` (part_001 lines 135-154). -/
def firstRoundMatch (finalPlayerOrder : List (Option String)) (i : Nat) : Match :=
  let p1 := finalPlayerOrder.getD (i * 2) none
  let p2 := finalPlayerOrder.getD (i * 2 + 1) none
  let isBye := (p1.isSome && p2.isNone) || (p1.isNone && p2.isSome)
  { id := matchId 0 i
    roundIndex := 0
    matchIndex := i
    players := [p1, p2]
    scores := [0, 0]
    isBye := isBye
    winnerId := if isBye then (if p1.isSome then p1 else p2) else none }

/-- The `for (let i = 0; i < bracketSize / 2; i++)` loop building round 0. -/
def mkFirstRound (finalPlayerOrder : List (Option String)) (bracketSize : Nat) :
    List Match :=
  (List.range (bracketSize / 2)).map (firstRoundMatch finalPlayerOrder)

/-- A later-round match fed by `previousRound[i]` and `previousRound[i+1]`
    (the second may be absent), part_001 lines 163-179. -/
def nextRoundMatch (roundIndex k : Nat) (m1 : Match) (m2 : Option Match) : Match :=
  { id := matchId roundIndex k
    roundIndex := roundIndex
    matchIndex := k
    players := [if m1.isBye then m1.winnerId else none,
                match m2 with
                | some m => if m.isBye then m.winnerId else none
                | none => none]
    scores := [0, 0] }

/-- The `for (let i = 0; i < previousRound.length; i += 2)` loop: matches of
    the next round, with `k` the running match index. -/
def buildNextRound (roundIndex : Nat) : Nat → List Match → List Match
  | _, [] => []
  | k, [m1] => [nextRoundMatch roundIndex k m1 none]
  | k, m1 :: m2 :: rest =>
    nextRoundMatch roundIndex k m1 (some m2) :: buildNextRound roundIndex (k + 1) rest

theorem length_buildNextRound (r : Nat) :
    ∀ (k : Nat) (l : List Match),
      (buildNextRound r k l).length = (l.length + 1) / 2
  | _, [] => rfl
  | _, [_] => by simp [buildNextRound]
  | k, _ :: m2 :: rest => by
    simp only [buildNextRound, List.length_cons,
      length_buildNextRound r (k + 1) rest]
    omega

/-- The `while (winnersBracket[winnersBracket.length-1].length > 1)` loop:
    the rounds built after `prev`. -/
def buildRounds (prev : List Match) (roundIndex : Nat) : List (List Match) :=
  if h : 1 < prev.length then
    let nr := buildNextRound roundIndex 0 prev
    nr :: buildRounds nr (roundIndex + 1)
  else []
termination_by prev.length
decreasing_by simp only [nr, length_buildNextRound]; omega

/-- The `nextMatchId` assignment loop (part_001 lines 185-189): every match of
    every non-final round `r` points at match `⌊m / 2⌋` of round `r + 1`. -/
def assignNextIds (rounds : List (List Match)) : List (List Match) :=
  rounds.mapIdx (fun r round =>
    if r < rounds.length - 1 then
      round.mapIdx (fun m mt => { mt with nextMatchId := some (matchId (r + 1) (m / 2)) })
    else round)

/-- Sets `isGrandFinals` on `winnersBracket[last][0]` when it exists
    (part_001 lines 191-192). -/
def markGrandFinals (rounds : List (List Match)) : List (List Match) :=
  rounds.mapIdx (fun r round =>
    if r = rounds.length - 1 then
      match round with
      | [] => []
      | m :: rest => { m with isGrandFinals := true } :: rest
    else round)

/-- `generateBracket` from part_001 lines 95-194. -/
def generateBracket (players : List Player) : Bracket :=
  let numPlayers := players.length
  if numPlayers < 2 then { winners := [] }
  else
    let bracketSize := 2 ^ Nat.clog 2 numPlayers
    let sortedPlayers := sortBySeed players
    let playerIds : List (Option String) :=
      sortedPlayers.map (fun p => some p.id) ++
        List.replicate (bracketSize - numPlayers) none
    let seedOrder := getStandardSeedingOrder bracketSize
    let finalPlayerOrder := seedOrder.map (fun seed => playerIds.getD (seed - 1).toNat none)
    let firstRound := mkFirstRound finalPlayerOrder bracketSize
    let rounds := firstRound :: buildRounds firstRound 1
    { winners := markGrandFinals (assignNextIds rounds) }

/-! ### Tournament update (`updateTournament`, part_001 lines 303-338) -/

/-- The per-tournament body of the `tournaments.map` in `updateTournament`:
    merge the updates, then apply the start / revert transition logic. -/
def transformTournament (u : TournamentUpdates) (t : Tournament) : Tournament :=
  let pending := applyUpdates t u
  if t.status = TournamentStatus.REGISTRATION_OPEN ∧
      pending.status = TournamentStatus.IN_PROGRESS then
    if 2 ≤ pending.players.length then
      { pending with bracket := some (generateBracket (sortBySeed pending.players)) }
    else
      { pending with status := t.status }
  else if t.status = TournamentStatus.IN_PROGRESS ∧
      pending.status = TournamentStatus.REGISTRATION_OPEN then
    { pending with bracket := none }
  else pending

/-- `updateTournament`: returns the new stored list and the tournament the
    JS function returns (the last list entry whose id matched, transformed). -/
def updateTournament (ts : List Tournament) (id : String) (u : TournamentUpdates) :
    List Tournament × Option Tournament :=
  (ts.map (fun t => if t.id = id then transformTournament u t else t),
   ((ts.filter (fun t => t.id = id)).getLast?).map (transformTournament u))

/-! ### Match advancement (`updateMatchWinner`, part_001 lines 380-424) -/

/-- Replace the first match of a round whose id is `mid` (JS `round.find`
    followed by in-place mutation); `none` when the round has no such match. -/
def updFirstInRound (mid : String) (f : Match → Match) : List Match → Option (List Match)
  | [] => none
  | m :: rest =>
    if m.id = mid then some (f m :: rest)
    else (updFirstInRound mid f rest).map (fun r => m :: r)

/-- Mutate the first match with id `mid` across the rounds, scanning rounds in
    order and stopping at the first round that contains it. -/
def updFirstMatch (mid : String) (f : Match → Match) : List (List Match) → List (List Match)
  | [] => []
  | round :: rest =>
    match updFirstInRound mid f round with
    | some newRound => newRound :: rest
    | none => round :: updFirstMatch mid f rest

/-- The first match with id `mid`, scanning rounds in order (JS
    `for (const round of ...) { const match = round.find(...) ... }`). -/
def findFirstMatch (mid : String) : List (List Match) → Option Match
  | [] => none
  | round :: rest =>
    match round.find? (fun m => m.id == mid) with
    | some m => some m
    | none => findFirstMatch mid rest

/-- Mutation applied to the reported match: set winner, scores and the
    `justCompleted` animation flag. -/
def setWinner (winnerId : String) (scores : List Int) (m : Match) : Match :=
  { m with winnerId := some winnerId, scores := scores, justCompleted := true }

/-- `nextMatch.players[playerIndexInNextMatch] = winnerId`. -/
def setPlayerSlot (idx : Nat) (pid : Option String) (m : Match) : Match :=
  { m with players := m.players.set idx pid }

/-- `findAndAdvance` applied to a bracket: set the winner on the first match
    with id `mid`, then write the winner into slot `matchIndex % 2` of the
    first match whose id is the `nextMatchId`. -/
def advanceBracket (br : Bracket) (mid winnerId : String) (scores : List Int) : Bracket :=
  match findFirstMatch mid br.winners with
  | none => br
  | some m =>
    let rounds1 := updFirstMatch mid (setWinner winnerId scores) br.winners
    if optTruthy m.nextMatchId then
      match m.nextMatchId with
      | some nid =>
        { winners := updFirstMatch nid (setPlayerSlot (m.matchIndex % 2) (some winnerId)) rounds1 }
      | none => { winners := rounds1 }
    else { winners := rounds1 }

/-- `updateMatchWinner`; state-passing version of the service call.  When the
    tournament or its bracket is missing nothing is stored (the JS function
    returns early). -/
def updateMatchWinner (ts : List Tournament) (tournamentId mid winnerId : String)
    (scores : List Int) : List Tournament × Option Tournament :=
  match ts.find? (fun t => t.id == tournamentId) with
  | none => (ts, none)
  | some t =>
    match t.bracket with
    | none => (ts, some t)
    | some br =>
      updateTournament ts tournamentId
        { bracket := some (some (advanceBracket br mid winnerId scores)) }

/-! ### Match reversal (`reverseMatchWinner`, part_001 lines 426-467) -/

/-- `match.players.indexOf(originalWinnerId)` followed by nulling that slot. -/
def clearSlotOfWinner (origWinner : String) (m : Match) : Match :=
  match m.players.findIdx? (fun p => p == some origWinner) with
  | some idx => { m with players := m.players.set idx none }
  | none => m

/-- The per-round body of `checkNextMatch`: if the round contains a match with
    id `nid`, fail when it already has a winner, otherwise null the slot
    holding the original winner. -/
def checkNextInRound (nid origWinner : String) (round : List Match) :
    Except String (List Match) :=
  match round.find? (fun m => m.id == nid) with
  | none => Except.ok round
  | some m =>
    if optTruthy m.winnerId then
      Except.error "Cannot reverse this match because a subsequent match has already been played. Please reverse the later match first."
    else Except.ok ((updFirstInRound nid (clearSlotOfWinner origWinner) round).getD round)

/-- `checkNextMatch` over all rounds (the JS loop has no `break`). -/
def checkNextRounds (nid origWinner : String) :
    List (List Match) → Except String (List (List Match))
  | [] => Except.ok []
  | round :: rest =>
    match checkNextInRound nid origWinner round with
    | Except.error e => Except.error e
    | Except.ok r =>
      match checkNextRounds nid origWinner rest with
      | Except.error e => Except.error e
      | Except.ok rs => Except.ok (r :: rs)

/-- Clearing the reversed match: null winner, zero scores, drop the flag. -/
def clearWinner (m : Match) : Match :=
  { m with winnerId := none, scores := [0, 0], justCompleted := false }

/-- `reverseMatchWinner`.  A JS `throw` happens before any store, so an
    `Except.error` result carries no new state: the stored list is unchanged. -/
def reverseMatchWinner (ts : List Tournament) (tournamentId mid : String) :
    Except String (List Tournament × Option Tournament) :=
  match ts.find? (fun t => t.id == tournamentId) with
  | none => Except.error "Tournament not found."
  | some t =>
    match t.bracket with
    | none => Except.error "Tournament not found."
    | some br =>
      match findFirstMatch mid br.winners with
      | none => Except.error "Match not found or it has no winner to reverse."
      | some m =>
        match m.winnerId with
        | none => Except.error "Match not found or it has no winner to reverse."
        | some origWinner =>
          if origWinner == "" then
            Except.error "Match not found or it has no winner to reverse."
          else
            match
              (if optTruthy m.nextMatchId then
                match m.nextMatchId with
                | some nid => checkNextRounds nid origWinner br.winners
                | none => Except.ok br.winners
              else Except.ok br.winners) with
            | Except.error e => Except.error e
            | Except.ok rounds1 =>
              Except.ok (updateTournament ts tournamentId
                { bracket := some (some (Bracket.mk (updFirstMatch mid clearWinner rounds1))) })

/-! ### Derived abbreviations used by the verification -/

/-- `bracketSize = Math.pow(2, Math.ceil(Math.log2(numPlayers)))`. -/
def bracketSizeOf (n : Nat) : Nat := 2 ^ Nat.clog 2 n

/-- The seed-sorted id list padded with `null` byes. -/
def playerIdsOf (players : List Player) : List (Option String) :=
  (sortBySeed players).map (fun p => some p.id) ++
    List.replicate (bracketSizeOf players.length - players.length) none

/-- `finalPlayerOrder = seedOrder.map(seed => playerIds[seed - 1])`. -/
def finalPlayerOrderOf (players : List Player) : List (Option String) :=
  (getStandardSeedingOrder (bracketSizeOf players.length)).map
    (fun seed => (playerIdsOf players).getD (seed - 1).toNat none)

/-- Round 0 of the generated bracket, before pointer/flag assignment. -/
def firstRoundOf (players : List Player) : List Match :=
  mkFirstRound (finalPlayerOrderOf players) (bracketSizeOf players.length)

theorem generateBracket_eq (players : List Player) (h2 : 2 ≤ players.length) :
    generateBracket players =
      ⟨markGrandFinals (assignNextIds
        (firstRoundOf players :: buildRounds (firstRoundOf players) 1))⟩ := by
  simp only [generateBracket, firstRoundOf, finalPlayerOrderOf, playerIdsOf, bracketSizeOf]
  rw [if_neg (by omega)]

/-- The integer list `[1, 2, ..., n]` of seeds. -/
def seedRange (n : Nat) : List Int := (List.range n).map (fun (i : Nat) => (i : Int) + 1)

/-- Consecutive disjoint pairs all sum to `c` (and the length is even). -/
def pairSumB (c : Int) : List Int → Bool
  | [] => true
  | [_] => false
  | a :: b :: t => (a + b == c) && pairSumB c t

/-! ### C7: updateTournament only touches the matching tournament -/

/-- C7: `updateTournament` maps over the stored list and returns every
    tournament whose id differs from the given id unchanged, in place;
    the stored list keeps its length. -/
theorem updateTournament_frame (ts : List Tournament) (id : String)
    (u : TournamentUpdates) (i : Nat) (t : Tournament)
    (hmem : ts[i]? = some t) (hne : t.id ≠ id) :
    (updateTournament ts id u).1.length = ts.length ∧
    (updateTournament ts id u).1[i]? = some t := by
  constructor
  · simp [updateTournament]
  · simp [updateTournament, List.getElem?_map, hmem, hne]

/-- Witness for C7 at a concrete store: updating tournament `a` leaves
    tournament `b` untouched. -/
theorem updateTournament_frame_witness :
    ([⟨"a", TournamentStatus.DRAFT, [], none, "", ""⟩,
      ⟨"b", TournamentStatus.DRAFT, [], none, "", ""⟩] :
        List Tournament)[1]? = some ⟨"b", TournamentStatus.DRAFT, [], none, "", ""⟩ ∧
    ("b" : String) ≠ "a" ∧
    ((updateTournament
        [⟨"a", TournamentStatus.DRAFT, [], none, "", ""⟩,
         ⟨"b", TournamentStatus.DRAFT, [], none, "", ""⟩] "a"
        { status := some TournamentStatus.ARCHIVED }).1.length = 2 ∧
      (updateTournament
        [⟨"a", TournamentStatus.DRAFT, [], none, "", ""⟩,
         ⟨"b", TournamentStatus.DRAFT, [], none, "", ""⟩] "a"
        { status := some TournamentStatus.ARCHIVED }).1[1]? =
        some ⟨"b", TournamentStatus.DRAFT, [], none, "", ""⟩) :=
  ⟨by decide, by decide,
    updateTournament_frame _ "a" _ 1 _ (by decide) (by decide)⟩

/-! ### C1: the standard seeding order -/

theorem pairSumB_expandSeeds (c : Int) (l : List Int) :
    pairSumB c (expandSeeds c l) = true := by
  induction l with
  | nil => rfl
  | cons a t ih =>
    show ((a + (c - a) == c) && pairSumB c (expandSeeds c t)) = true
    simp only [ih, Bool.and_true, beq_iff_eq]
    omega

theorem expandSeeds_perm (c : Int) (l : List Int) :
    List.Perm (expandSeeds c l) (l ++ l.map (fun s => c - s)) := by
  induction l with
  | nil => simp [expandSeeds]
  | cons a t ih =>
    simp only [expandSeeds, List.map_cons, List.cons_append]
    exact ((ih.cons _).cons _).trans (List.perm_middle.symm.cons a)

theorem mem_seedRange {n : Nat} {x : Int} :
    x ∈ seedRange n ↔ 1 ≤ x ∧ x ≤ (n : Int) := by
  simp only [seedRange, List.mem_map, List.mem_range]
  constructor
  · rintro ⟨a, ha, rfl⟩
    omega
  · rintro ⟨h1, h2⟩
    exact ⟨(x - 1).toNat, by omega, by omega⟩

theorem nodup_seedRange (n : Nat) : (seedRange n).Nodup := by
  refine List.Nodup.map ?_ (List.nodup_range n)
  intro a b h
  simpa using h

theorem length_seedRange (n : Nat) : (seedRange n).length = n := by
  rw [seedRange, List.length_map, List.length_range]

theorem expandSeeds_perm_seedRange {n : Nat} {l : List Int}
    (hperm : List.Perm l (seedRange n)) :
    List.Perm (expandSeeds ((l.length : Int) * 2 + 1) l) (seedRange (2 * n)) := by
  have hn : l.length = n := hperm.length_eq.trans (length_seedRange n)
  rw [hn]
  refine (expandSeeds_perm _ l).trans ?_
  have hmap : List.Perm (l.map (fun s => ((n : Int) * 2 + 1) - s))
      ((seedRange n).map (fun s => ((n : Int) * 2 + 1) - s)) := hperm.map _
  refine ((hperm.append hmap)).trans ?_
  apply List.perm_of_nodup_nodup_toFinset_eq
  · refine List.Nodup.append (nodup_seedRange n) (List.Nodup.map ?_ (nodup_seedRange n)) ?_
    · intro a b h
      simpa using h
    · intro x hx hx'
      rcases List.mem_map.mp hx' with ⟨y, hy, rfl⟩
      rw [mem_seedRange] at hx hy
      omega
  · exact nodup_seedRange (2 * n)
  · ext x
    simp only [List.mem_toFinset, List.mem_append, List.mem_map, mem_seedRange]
    constructor
    · rintro (h | ⟨y, hy, rfl⟩)
      · push_cast
        omega
      · push_cast
        omega
    · intro h
      by_cases hsmall : x ≤ (n : Int)
      · left
        push_cast at h
        omega
      · right
        refine ⟨(n : Int) * 2 + 1 - x, ?_, by omega⟩
        push_cast at h ⊢
        omega

theorem head?_expandSeeds (c : Int) (a : Int) (t : List Int) :
    (expandSeeds c (a :: t)).head? = some a := rfl

/-- Invariant of the doubling loop: starting from a power-of-two sized round
    that is a permutation of the seeds `1..len` with complementary pairs and
    leading seed 1, the loop ends with the same properties at length `size`. -/
theorem buildSeedOrder_spec (size : Nat) (l : List Int) (h : 0 < l.length)
    (hpow : ∃ j, l.length = 2 ^ j) (hle : l.length ≤ size)
    (hsize : ∃ k, size = 2 ^ k)
    (hperm : List.Perm l (seedRange l.length))
    (hpair : pairSumB ((l.length : Int) + 1) l = true)
    (hhead : l.head? = some 1) :
    (buildSeedOrder size l h).length = size ∧
    List.Perm (buildSeedOrder size l h) (seedRange size) ∧
    pairSumB ((size : Int) + 1) (buildSeedOrder size l h) = true ∧
    (buildSeedOrder size l h).head? = some 1 := by
  rw [buildSeedOrder]
  split
  case isTrue hlt =>
    obtain ⟨j, hj⟩ := hpow
    obtain ⟨k, hk⟩ := hsize
    have h2jk : (2 : Nat) ^ j < 2 ^ k := by omega
    have hjk : j < k :=
      (Nat.pow_lt_pow_iff_right (by norm_num : (1 : Nat) < 2)).mp h2jk
    refine buildSeedOrder_spec size (nextSeedRound l) _ ?_ ?_ ⟨k, hk⟩ ?_ ?_ ?_
    · exact ⟨j + 1, by rw [length_nextSeedRound, hj, pow_succ]; ring⟩
    · rw [length_nextSeedRound, hj, hk]
      calc 2 * 2 ^ j = 2 ^ (j + 1) := by rw [pow_succ]; ring
        _ ≤ 2 ^ k := Nat.pow_le_pow_right (by omega) (by omega)
    · rw [length_nextSeedRound]
      exact expandSeeds_perm_seedRange hperm
    · rw [length_nextSeedRound, nextSeedRound]
      have hcast : ((2 * l.length : Nat) : Int) + 1 = (l.length : Int) * 2 + 1 := by
        push_cast
        ring
      rw [hcast]
      exact pairSumB_expandSeeds _ _
    · rcases l with _ | ⟨a, t⟩
      · simp at h
      · simp only [List.head?_cons, Option.some.injEq] at hhead
        rw [nextSeedRound, hhead.symm]
        exact head?_expandSeeds _ _ _
  case isFalse hge =>
    have heq : l.length = size := by omega
    rw [← heq]
    exact ⟨rfl, hperm, hpair, hhead⟩
termination_by size - l.length
decreasing_by rw [length_nextSeedRound]; omega

theorem pairSumB_getD (c : Int) :
    ∀ (l : List Int), pairSumB c l = true →
      ∀ i, 2 * i + 1 < l.length →
        l.getD (2 * i) 0 + l.getD (2 * i + 1) 0 = c
  | [], _, i, hi => by simp at hi
  | [a], hp, i, hi => by simp [pairSumB] at hp
  | a :: b :: t, hp, i, hi => by
    have hp' : a + b = c ∧ pairSumB c t = true := by
      have : ((a + b == c) && pairSumB c t) = true := hp
      simpa using this
    cases i with
    | zero => simpa using hp'.1
    | succ i =>
      have h2 : 2 * (i + 1) = 2 * i + 1 + 1 := by ring
      rw [h2]
      simp only [List.getD_cons_succ]
      exact pairSumB_getD c t hp'.2 i (by simp at hi; omega)

theorem head?_getD (l : List Int) (a : Int) (hh : l.head? = some a) :
    l.getD 0 0 = a := by
  cases l with
  | nil => simp at hh
  | cons x t => simpa using hh

/-- C1: for every power-of-two bracket size of at least 2, the seeding order
    is a permutation of `1..size` of length `size` whose consecutive pairs
    (positions `2i` and `2i + 1`) sum to `size + 1`; in particular the first
    match pairs seed 1 against seed `size`. -/
theorem getStandardSeedingOrder_spec (size : Nat) (hpow : ∃ k, size = 2 ^ k)
    (h2 : 2 ≤ size) :
    (getStandardSeedingOrder size).length = size ∧
    List.Perm (getStandardSeedingOrder size) (seedRange size) ∧
    (∀ i, 2 * i + 1 < size →
      (getStandardSeedingOrder size).getD (2 * i) 0 +
        (getStandardSeedingOrder size).getD (2 * i + 1) 0 = (size : Int) + 1) ∧
    (getStandardSeedingOrder size).getD 0 0 = 1 ∧
    (getStandardSeedingOrder size).getD 1 0 = (size : Int) := by
  have hmain := buildSeedOrder_spec size [1, 2] (by decide) ⟨1, rfl⟩
    (by simpa using h2) hpow (by decide) (by decide) rfl
  have hdef : getStandardSeedingOrder size = buildSeedOrder size [1, 2] (by decide) := by
    rw [getStandardSeedingOrder, if_neg (by omega)]
  rw [hdef]
  obtain ⟨hlen, hperm, hpair, hhead⟩ := hmain
  have hpairs := fun i hi => pairSumB_getD _ _ hpair i (by rw [hlen]; exact hi)
  have h0 : (buildSeedOrder size [1, 2] (by decide)).getD 0 0 = 1 := head?_getD _ _ hhead
  refine ⟨hlen, hperm, hpairs, h0, ?_⟩
  have h01 := hpairs 0 (by omega)
  simp only [Nat.mul_zero, Nat.zero_add] at h01
  rw [h0] at h01
  omega

/-- Witness for C1 at the concrete size 8. -/
theorem getStandardSeedingOrder_spec_witness :
    (∃ k, (8 : Nat) = 2 ^ k) ∧ (2 ≤ 8) ∧
    ((getStandardSeedingOrder 8).length = 8 ∧
      List.Perm (getStandardSeedingOrder 8) (seedRange 8) ∧
      (∀ i, 2 * i + 1 < 8 →
        (getStandardSeedingOrder 8).getD (2 * i) 0 +
          (getStandardSeedingOrder 8).getD (2 * i + 1) 0 = (8 : Int) + 1) ∧
      (getStandardSeedingOrder 8).getD 0 0 = 1 ∧
      (getStandardSeedingOrder 8).getD 1 0 = (8 : Int)) :=
  ⟨⟨3, rfl⟩, by omega, getStandardSeedingOrder_spec 8 ⟨3, rfl⟩ (by omega)⟩

/-! ### C6: seeding placement depends only on the seed-to-player map -/

theorem sortBySeed_perm (l : List Player) : List.Perm (sortBySeed l) l :=
  List.mergeSort_perm l _

theorem sortBySeed_sorted (l : List Player) :
    (sortBySeed l).Pairwise (fun a b => a.seed ≤ b.seed) := by
  refine (List.sorted_mergeSort ?_ ?_ l).imp ?_
  · intro a b c hab hbc
    simp only [decide_eq_true_eq] at hab hbc ⊢
    omega
  · intro a b
    simp [Nat.le_total]
  · intro a b h
    simpa using h

theorem sortBySeed_eq_of_perm (l₁ l₂ : List Player) (hperm : List.Perm l₁ l₂)
    (hdist : l₁.Pairwise (fun a b => a.seed ≠ b.seed)) :
    sortBySeed l₁ = sortBySeed l₂ := by
  have hsymm : ∀ {x y : Player}, x.seed ≠ y.seed → y.seed ≠ x.seed := fun h => h.symm
  have hd₁ : (sortBySeed l₁).Pairwise (fun a b => a.seed ≠ b.seed) :=
    ((sortBySeed_perm l₁).pairwise_iff hsymm).mpr hdist
  have hd₂ : (sortBySeed l₂).Pairwise (fun a b => a.seed ≠ b.seed) :=
    ((sortBySeed_perm l₂).pairwise_iff hsymm).mpr ((hperm.pairwise_iff hsymm).mp hdist)
  have hlt₁ : (sortBySeed l₁).Pairwise (fun a b => a.seed < b.seed) :=
    ((sortBySeed_sorted l₁).and hd₁).imp (fun h => lt_of_le_of_ne h.1 h.2)
  have hlt₂ : (sortBySeed l₂).Pairwise (fun a b => a.seed < b.seed) :=
    ((sortBySeed_sorted l₂).and hd₂).imp (fun h => lt_of_le_of_ne h.1 h.2)
  have hps : List.Perm (sortBySeed l₁) (sortBySeed l₂) :=
    (sortBySeed_perm l₁).trans (hperm.trans (sortBySeed_perm l₂).symm)
  haveI : IsAntisymm Player (fun a b => a.seed < b.seed) :=
    ⟨fun a b h1 h2 => absurd h2 (by omega)⟩
  exact List.eq_of_perm_of_sorted hps hlt₁ hlt₂

/-- C6: with pairwise distinct seeds, the generated bracket (in particular
    every first-round slot) is unchanged by permuting the input player list,
    because `generateBracket` sorts by ascending seed first. -/
theorem generateBracket_perm_invariant (l₁ l₂ : List Player)
    (hperm : List.Perm l₁ l₂)
    (hdist : l₁.Pairwise (fun a b => a.seed ≠ b.seed)) :
    generateBracket l₁ = generateBracket l₂ := by
  have hlen : l₁.length = l₂.length := hperm.length_eq
  have hsort : sortBySeed l₁ = sortBySeed l₂ := sortBySeed_eq_of_perm l₁ l₂ hperm hdist
  simp only [generateBracket, hlen, hsort]

/-- Witness for C6: two orderings of the same three players produce the same
    bracket. -/
theorem generateBracket_perm_invariant_witness :
    List.Perm
      [(⟨"a", "", "", 2, ""⟩ : Player), ⟨"b", "", "", 1, ""⟩, ⟨"c", "", "", 3, ""⟩]
      [⟨"c", "", "", 3, ""⟩, ⟨"b", "", "", 1, ""⟩, ⟨"a", "", "", 2, ""⟩] ∧
    ([(⟨"a", "", "", 2, ""⟩ : Player), ⟨"b", "", "", 1, ""⟩, ⟨"c", "", "", 3, ""⟩].Pairwise
      (fun a b => a.seed ≠ b.seed)) ∧
    generateBracket
        [(⟨"a", "", "", 2, ""⟩ : Player), ⟨"b", "", "", 1, ""⟩, ⟨"c", "", "", 3, ""⟩] =
      generateBracket
        [⟨"c", "", "", 3, ""⟩, ⟨"b", "", "", 1, ""⟩, ⟨"a", "", "", 2, ""⟩] :=
  ⟨by decide, by decide,
    generateBracket_perm_invariant _ _ (by decide) (by decide)⟩

/-! ### Structure of the generated rounds (towards C3, C4, C5, C8) -/

/-- Shape of a match as built before pointer/flag assignment. -/
def preShape (r j : Nat) (mt : Match) : Prop :=
  mt.id = matchId r j ∧ mt.roundIndex = r ∧ mt.matchIndex = j ∧
  mt.nextMatchId = none ∧ mt.isGrandFinals = false

theorem preShape_nextRoundMatch (r k : Nat) (m1 : Match) (m2 : Option Match) :
    preShape r k (nextRoundMatch r k m1 m2) :=
  ⟨rfl, rfl, rfl, rfl, rfl⟩

theorem preShape_firstRoundMatch (fpo : List (Option String)) (j : Nat) :
    preShape 0 j (firstRoundMatch fpo j) :=
  ⟨rfl, rfl, rfl, rfl, rfl⟩

theorem length_mkFirstRound (fpo : List (Option String)) (bs : Nat) :
    (mkFirstRound fpo bs).length = bs / 2 := by
  simp [mkFirstRound]

theorem getElem?_mkFirstRound (fpo : List (Option String)) (bs j : Nat) :
    (mkFirstRound fpo bs)[j]? =
      if j < bs / 2 then some (firstRoundMatch fpo j) else none := by
  by_cases h : j < bs / 2
  · simp [mkFirstRound, List.getElem?_map, List.getElem?_range h, h]
  · have hlen : (mkFirstRound fpo bs).length ≤ j := by
      rw [length_mkFirstRound]
      omega
    simp [List.getElem?_eq_none hlen, h]

theorem getElem?_buildNextRound (r : Nat) :
    ∀ (k : Nat) (l : List Match) (j : Nat),
      (buildNextRound r k l)[j]? =
        (l[2 * j]?).map (fun m1 => nextRoundMatch r (k + j) m1 (l[2 * j + 1]?))
  | _, [], j => by simp [buildNextRound]
  | k, [m1], j => by
    cases j with
    | zero => simp [buildNextRound]
    | succ j =>
      have h1 : 2 * (j + 1) = 2 * j + 1 + 1 := by ring
      simp [buildNextRound, h1]
  | k, m1 :: m2 :: rest, j => by
    cases j with
    | zero => simp [buildNextRound]
    | succ j =>
      have ih := getElem?_buildNextRound r (k + 1) rest j
      have h1 : 2 * (j + 1) = 2 * j + 1 + 1 := by ring
      have h2 : k + (j + 1) = k + 1 + j := by ring
      simp only [buildNextRound, List.getElem?_cons_succ, h1, h2]
      exact ih

theorem buildRounds_eq_pos (prev : List Match) (ri : Nat) (h : 1 < prev.length) :
    buildRounds prev ri =
      buildNextRound ri 0 prev :: buildRounds (buildNextRound ri 0 prev) (ri + 1) := by
  rw [buildRounds]
  simp [h]

theorem buildRounds_eq_neg (prev : List Match) (ri : Nat) (h : ¬ 1 < prev.length) :
    buildRounds prev ri = [] := by
  rw [buildRounds]
  simp [h]

theorem buildRounds_shape :
    ∀ (a : Nat) (prev : List Match) (ri : Nat), prev.length = 2 ^ a →
      (buildRounds prev ri).length = a ∧
      ∀ i round, (buildRounds prev ri)[i]? = some round →
        round.length = 2 ^ (a - 1 - i) ∧
        ∀ j mt, round[j]? = some mt → preShape (ri + i) j mt := by
  intro a
  induction a with
  | zero =>
    intro prev ri hlen
    rw [buildRounds_eq_neg prev ri (by omega)]
    exact ⟨rfl, by intro i round h; simp at h⟩
  | succ a ih =>
    intro prev ri hlen
    have h2a : 0 < 2 ^ a := Nat.two_pow_pos a
    have hpow : (2 : Nat) ^ (a + 1) = 2 ^ a * 2 := pow_succ 2 a
    have hlt : 1 < prev.length := by omega
    rw [buildRounds_eq_pos prev ri hlt]
    have hnrlen : (buildNextRound ri 0 prev).length = 2 ^ a := by
      rw [length_buildNextRound, hlen, hpow]
      omega
    obtain ⟨ihlen, ihshape⟩ := ih (buildNextRound ri 0 prev) (ri + 1) hnrlen
    refine ⟨by simp [ihlen], ?_⟩
    intro i round h
    cases i with
    | zero =>
      simp only [List.getElem?_cons_zero, Option.some.injEq] at h
      subst h
      refine ⟨by simpa using hnrlen, ?_⟩
      intro j mt hmt
      rw [getElem?_buildNextRound] at hmt
      obtain ⟨m1, _, rfl⟩ := Option.map_eq_some'.mp hmt
      have := preShape_nextRoundMatch ri (0 + j) m1 (prev[2 * j + 1]?)
      simpa using this
    | succ i =>
      simp only [List.getElem?_cons_succ] at h
      obtain ⟨hl, hs⟩ := ihshape i round h
      refine ⟨by rw [hl]; congr 1; omega, ?_⟩
      intro j mt hmt
      have hshape := hs j mt hmt
      rwa [show ri + 1 + i = ri + (i + 1) by ring] at hshape

theorem bracketSize_facts (n : Nat) (h2 : 2 ≤ n) :
    2 ≤ bracketSizeOf n ∧ n ≤ bracketSizeOf n ∧ bracketSizeOf n < 2 * n ∧
    1 ≤ Nat.clog 2 n := by
  have hk : 0 < Nat.clog 2 n := Nat.clog_pos (by omega) h2
  have hle : n ≤ 2 ^ Nat.clog 2 n := by
    rw [Nat.le_pow_iff_clog_le (by omega)]
  have hlt : 2 ^ (Nat.clog 2 n - 1) < n := by
    rw [Nat.pow_lt_iff_lt_clog (by omega)]
    omega
  have hsucc : (2 : Nat) ^ Nat.clog 2 n = 2 ^ (Nat.clog 2 n - 1) * 2 := by
    rw [← pow_succ]
    congr 1
    omega
  have hsz : bracketSizeOf n = 2 ^ Nat.clog 2 n := rfl
  refine ⟨?_, ?_, ?_, hk⟩ <;> rw [hsz] <;> omega

theorem firstRound_len (players : List Player) (h2 : 2 ≤ players.length) :
    (firstRoundOf players).length = 2 ^ (Nat.clog 2 players.length - 1) := by
  obtain ⟨_, _, _, hR1⟩ := bracketSize_facts players.length h2
  rw [firstRoundOf, length_mkFirstRound]
  have hsucc : bracketSizeOf players.length = 2 ^ (Nat.clog 2 players.length - 1) * 2 := by
    rw [bracketSizeOf, ← pow_succ]
    congr 1
    omega
  omega

/-- Shape of the full generated bracket: `R = ⌈log₂ n⌉` rounds, round `r`
    holding `2 ^ (R - 1 - r)` matches; the match at `(r, j)` carries id
    `matchId r j`, indices `(r, j)`, the parent pointer for non-final rounds,
    and the grand-finals flag exactly on the last round. -/
theorem winners_shape (players : List Player) (h2 : 2 ≤ players.length) :
    (generateBracket players).winners.length = Nat.clog 2 players.length ∧
    ∀ r round, (generateBracket players).winners[r]? = some round →
      round.length = 2 ^ (Nat.clog 2 players.length - 1 - r) ∧
      ∀ j mt, round[j]? = some mt →
        mt.id = matchId r j ∧ mt.roundIndex = r ∧ mt.matchIndex = j ∧
        mt.nextMatchId = (if r + 1 < Nat.clog 2 players.length
          then some (matchId (r + 1) (j / 2)) else none) ∧
        mt.isGrandFinals = decide (r + 1 = Nat.clog 2 players.length) := by
  obtain ⟨hsz2, hszle, hszlt, hR1⟩ := bracketSize_facts players.length h2
  have hFlen := firstRound_len players h2
  rw [generateBracket_eq players h2]
  obtain ⟨hbl, hbs⟩ :=
    buildRounds_shape (Nat.clog 2 players.length - 1) (firstRoundOf players) 1 hFlen
  have hlen0 : (firstRoundOf players :: buildRounds (firstRoundOf players) 1).length =
      Nat.clog 2 players.length := by
    simp only [List.length_cons, hbl]
    omega
  have hshape0 : ∀ r round,
      (firstRoundOf players :: buildRounds (firstRoundOf players) 1)[r]? = some round →
      round.length = 2 ^ (Nat.clog 2 players.length - 1 - r) ∧
      ∀ j mt, round[j]? = some mt → preShape r j mt := by
    intro r round h
    cases r with
    | zero =>
      simp only [List.getElem?_cons_zero, Option.some.injEq] at h
      subst h
      refine ⟨by simpa using hFlen, ?_⟩
      intro j mt hmt
      rw [firstRoundOf, getElem?_mkFirstRound] at hmt
      split at hmt
      · cases hmt
        exact preShape_firstRoundMatch _ _
      · cases hmt
    | succ r =>
      simp only [List.getElem?_cons_succ] at h
      obtain ⟨hl, hs⟩ := hbs r round h
      refine ⟨by rw [hl]; congr 1; omega, ?_⟩
      intro j mt hmt
      have hsh := hs j mt hmt
      rwa [show 1 + r = r + 1 by ring] at hsh
  constructor
  · simp only [markGrandFinals, assignNextIds, List.length_mapIdx]
    exact hlen0
  · intro r round h
    simp only [markGrandFinals, assignNextIds, List.getElem?_mapIdx, List.length_mapIdx,
      hlen0] at h
    rcases hx : (firstRoundOf players :: buildRounds (firstRoundOf players) 1)[r]?
      with _ | round0
    · rw [hx] at h
      cases h
    · rw [hx] at h
      simp only [Option.map_some', Option.some.injEq] at h
      have hrlt : r < Nat.clog 2 players.length := by
        obtain ⟨hlt2, _⟩ := List.getElem?_eq_some_iff.mp hx
        omega
      obtain ⟨hl0, hs0⟩ := hshape0 r round0 hx
      by_cases hcase : r < Nat.clog 2 players.length - 1
      · rw [if_pos hcase, if_neg (by omega)] at h
        subst h
        refine ⟨by simpa using hl0, ?_⟩
        intro j mt hmt
        simp only [List.getElem?_mapIdx] at hmt
        rcases hy : round0[j]? with _ | mt0
        · rw [hy] at hmt
          cases hmt
        · rw [hy] at hmt
          cases hmt
          obtain ⟨hid, hri, hmi, hnx, hgf⟩ := hs0 j mt0 hy
          refine ⟨?_, ?_, ?_, ?_, ?_⟩
          · simpa using hid
          · simpa using hri
          · simpa using hmi
          · rw [if_pos (show r + 1 < Nat.clog 2 players.length by omega)]
          · have hg : ({ mt0 with nextMatchId := some (matchId (r + 1) (j / 2)) } :
                Match).isGrandFinals = false := hgf
            rw [hg]
            symm
            simp only [decide_eq_false_iff_not]
            omega
      · have hreq : r = Nat.clog 2 players.length - 1 := by omega
        rw [if_neg hcase, if_pos hreq] at h
        have hl1 : round0.length = 1 := by
          rw [hl0, hreq]
          simp
        obtain ⟨m0, rfl⟩ := List.length_eq_one.mp hl1
        subst h
        obtain ⟨hid, hri, hmi, hnx, hgf⟩ := hs0 0 m0 rfl
        refine ⟨?_, ?_⟩
        · simp
          omega
        · intro j mt hmt
          cases j with
          | zero =>
            simp only [List.getElem?_cons_zero, Option.some.injEq] at hmt
            subst hmt
            refine ⟨?_, ?_, ?_, ?_, ?_⟩
            · simpa using hid
            · simpa using hri
            · simpa using hmi
            · rw [if_neg (by omega)]
              simpa using hnx
            · simp
              omega
          | succ j =>
            simp at hmt

/-- C3: for `n ≥ 2` players the bracket has `R = ⌈log₂ n⌉` rounds, round `r`
    has `2 ^ (R - 1 - r)` matches, every match of a non-final round points via
    `nextMatchId` at the id of match `⌊j / 2⌋` of round `r + 1`, and the last
    round is a single match marked `isGrandFinals`. -/
theorem generateBracket_structure (players : List Player) (h2 : 2 ≤ players.length) :
    (generateBracket players).winners.length = Nat.clog 2 players.length ∧
    (∀ r round, (generateBracket players).winners[r]? = some round →
      round.length = 2 ^ (Nat.clog 2 players.length - 1 - r)) ∧
    (∀ r round, (generateBracket players).winners[r]? = some round →
      r + 1 < Nat.clog 2 players.length →
      ∀ j mt, round[j]? = some mt →
        ∃ round2 mt2, (generateBracket players).winners[r + 1]? = some round2 ∧
          round2[j / 2]? = some mt2 ∧ mt.nextMatchId = some mt2.id) ∧
    (∃ gfRound gf,
      (generateBracket players).winners[Nat.clog 2 players.length - 1]? = some gfRound ∧
      gfRound = [gf] ∧ gf.isGrandFinals = true) := by
  obtain ⟨hW, hsh⟩ := winners_shape players h2
  obtain ⟨hsz2, hszle, hszlt, hR1⟩ := bracketSize_facts players.length h2
  refine ⟨hW, fun r round h => (hsh r round h).1, ?_, ?_⟩
  · intro r round h hr1 j mt hmt
    obtain ⟨hl, hmatch⟩ := hsh r round h
    obtain ⟨_, _, _, hnx, _⟩ := hmatch j mt hmt
    have hjlt : j < round.length := by
      obtain ⟨hj, _⟩ := List.getElem?_eq_some_iff.mp hmt
      exact hj
    have hr2lt : r + 1 < (generateBracket players).winners.length := by omega
    have hx2 : (generateBracket players).winners[r + 1]? =
        some ((generateBracket players).winners[r + 1]) :=
      List.getElem?_eq_getElem hr2lt
    obtain ⟨hl2, hmatch2⟩ := hsh (r + 1) _ hx2
    have hpow : (2 : Nat) ^ (Nat.clog 2 players.length - 1 - r) =
        2 ^ (Nat.clog 2 players.length - 1 - (r + 1)) * 2 := by
      rw [← pow_succ]
      congr 1
      omega
    have hj2 : j / 2 < ((generateBracket players).winners[r + 1]).length := by
      rw [hl2]
      rw [hl, hpow] at hjlt
      omega
    have hx3 : ((generateBracket players).winners[r + 1])[j / 2]? =
        some (((generateBracket players).winners[r + 1])[j / 2]) :=
      List.getElem?_eq_getElem hj2
    obtain ⟨hid2, _, _, _, _⟩ := hmatch2 (j / 2) _ hx3
    refine ⟨_, _, hx2, hx3, ?_⟩
    rw [hnx, if_pos hr1, hid2]
  · have hlt : Nat.clog 2 players.length - 1 < (generateBracket players).winners.length := by
      omega
    have hx : (generateBracket players).winners[Nat.clog 2 players.length - 1]? =
        some ((generateBracket players).winners[Nat.clog 2 players.length - 1]) :=
      List.getElem?_eq_getElem hlt
    obtain ⟨hl, hmatch⟩ := hsh _ _ hx
    have hl1 : ((generateBracket players).winners[Nat.clog 2 players.length - 1]).length = 1 := by
      rw [hl]
      simp
    obtain ⟨gf, hgf⟩ := List.length_eq_one.mp hl1
    obtain ⟨_, _, _, _, hflag⟩ := hmatch 0 gf (by rw [hgf]; rfl)
    refine ⟨_, gf, hx, hgf, ?_⟩
    rw [hflag]
    simp only [decide_eq_true_eq]
    omega

/-- Witness for C3 with three concrete players. -/
theorem generateBracket_structure_witness :
    2 ≤ ([(⟨"a", "", "", 1, ""⟩ : Player), ⟨"b", "", "", 2, ""⟩,
      ⟨"c", "", "", 3, ""⟩] : List Player).length ∧
    ((generateBracket [(⟨"a", "", "", 1, ""⟩ : Player), ⟨"b", "", "", 2, ""⟩,
        ⟨"c", "", "", 3, ""⟩]).winners.length =
      Nat.clog 2 ([(⟨"a", "", "", 1, ""⟩ : Player), ⟨"b", "", "", 2, ""⟩,
        ⟨"c", "", "", 3, ""⟩] : List Player).length ∧
      (∀ r round, (generateBracket [(⟨"a", "", "", 1, ""⟩ : Player), ⟨"b", "", "", 2, ""⟩,
          ⟨"c", "", "", 3, ""⟩]).winners[r]? = some round →
        round.length = 2 ^ (Nat.clog 2 ([(⟨"a", "", "", 1, ""⟩ : Player), ⟨"b", "", "", 2, ""⟩,
          ⟨"c", "", "", 3, ""⟩] : List Player).length - 1 - r)) ∧
      (∀ r round, (generateBracket [(⟨"a", "", "", 1, ""⟩ : Player), ⟨"b", "", "", 2, ""⟩,
          ⟨"c", "", "", 3, ""⟩]).winners[r]? = some round →
        r + 1 < Nat.clog 2 ([(⟨"a", "", "", 1, ""⟩ : Player), ⟨"b", "", "", 2, ""⟩,
          ⟨"c", "", "", 3, ""⟩] : List Player).length →
        ∀ j mt, round[j]? = some mt →
          ∃ round2 mt2, (generateBracket [(⟨"a", "", "", 1, ""⟩ : Player), ⟨"b", "", "", 2, ""⟩,
              ⟨"c", "", "", 3, ""⟩]).winners[r + 1]? = some round2 ∧
            round2[j / 2]? = some mt2 ∧ mt.nextMatchId = some mt2.id) ∧
      (∃ gfRound gf, (generateBracket [(⟨"a", "", "", 1, ""⟩ : Player), ⟨"b", "", "", 2, ""⟩,
          ⟨"c", "", "", 3, ""⟩]).winners[Nat.clog 2 ([(⟨"a", "", "", 1, ""⟩ : Player),
          ⟨"b", "", "", 2, ""⟩, ⟨"c", "", "", 3, ""⟩] : List Player).length - 1]? =
          some gfRound ∧ gfRound = [gf] ∧ gf.isGrandFinals = true)) :=
  ⟨by decide, generateBracket_structure _ (by decide)⟩

/-- Pointer/flag assignment only rewrites `nextMatchId` and `isGrandFinals`:
    players, bye flags and winners of every match agree with the raw rounds. -/
theorem winners_core (players : List Player) (h2 : 2 ≤ players.length) :
    ∀ (r : Nat) (round : List Match), (generateBracket players).winners[r]? = some round →
      ∃ round0 : List Match,
        (firstRoundOf players :: buildRounds (firstRoundOf players) 1)[r]? = some round0 ∧
        round.length = round0.length ∧
        ∀ (j : Nat) (mt : Match), round[j]? = some mt → ∃ mt0, round0[j]? = some mt0 ∧
          mt.players = mt0.players ∧ mt.isBye = mt0.isBye ∧ mt.winnerId = mt0.winnerId ∧
          mt.scores = mt0.scores := by
  rw [generateBracket_eq players h2]
  intro r round h
  simp only [markGrandFinals, assignNextIds, List.getElem?_mapIdx, List.length_mapIdx] at h
  rcases hx : (firstRoundOf players :: buildRounds (firstRoundOf players) 1)[r]?
    with _ | round0
  · rw [hx] at h
    cases h
  · rw [hx] at h
    simp only [Option.map_some', Option.some.injEq] at h
    by_cases hA : r < (firstRoundOf players :: buildRounds (firstRoundOf players) 1).length - 1
    · rw [if_pos hA, if_neg (by omega)] at h
      subst h
      refine ⟨round0, rfl, by simp, ?_⟩
      intro j mt hmt
      simp only [List.getElem?_mapIdx] at hmt
      rcases hy : round0[j]? with _ | mt0
      · rw [hy] at hmt
        cases hmt
      · rw [hy] at hmt
        simp only [Option.map_some', Option.some.injEq] at hmt
        subst hmt
        exact ⟨mt0, rfl, rfl, rfl, rfl, rfl⟩
    · rw [if_neg hA] at h
      by_cases hB : r = (firstRoundOf players :: buildRounds (firstRoundOf players) 1).length - 1
      · rw [if_pos hB] at h
        rcases round0 with _ | ⟨m0, rest⟩
        · subst h
          exact ⟨[], rfl, rfl, by intro j mt hmt; simp at hmt⟩
        · subst h
          refine ⟨m0 :: rest, rfl, by simp, ?_⟩
          intro j mt hmt
          cases j with
          | zero =>
            simp only [List.getElem?_cons_zero, Option.some.injEq] at hmt
            subst hmt
            exact ⟨m0, by simp, rfl, rfl, rfl, rfl⟩
          | succ j =>
            simp only [List.getElem?_cons_succ] at hmt
            exact ⟨mt, by simpa using hmt, rfl, rfl, rfl, rfl⟩
      · rw [if_neg hB] at h
        subst h
        refine ⟨round0, rfl, rfl, ?_⟩
        intro j mt hmt
        exact ⟨mt, hmt, rfl, rfl, rfl, rfl⟩

/-! ### First-round player slots (towards C4 and C8) -/

theorem firstRoundMatch_players (fpo : List (Option String)) (i : Nat) :
    (firstRoundMatch fpo i).players = [fpo.getD (i * 2) none, fpo.getD (i * 2 + 1) none] :=
  rfl

theorem firstRoundMatch_isBye (fpo : List (Option String)) (i : Nat) :
    (firstRoundMatch fpo i).isBye =
      (((fpo.getD (i * 2) none).isSome && (fpo.getD (i * 2 + 1) none).isNone) ||
        ((fpo.getD (i * 2) none).isNone && (fpo.getD (i * 2 + 1) none).isSome)) :=
  rfl

theorem firstRoundMatch_winnerId (fpo : List (Option String)) (i : Nat) :
    (firstRoundMatch fpo i).winnerId =
      (if (firstRoundMatch fpo i).isBye = true
        then (if (fpo.getD (i * 2) none).isSome then fpo.getD (i * 2) none
          else fpo.getD (i * 2 + 1) none)
        else none) := rfl

theorem length_sortBySeed (players : List Player) :
    (sortBySeed players).length = players.length := by
  simp [sortBySeed]

theorem playerIds_getD_lt (players : List Player) (i : Nat) (hi : i < players.length) :
    ((playerIdsOf players).getD i none).isSome = true := by
  rw [playerIdsOf, List.getD_eq_getElem?_getD,
    List.getElem?_append_left (by rw [List.length_map, length_sortBySeed]; exact hi),
    List.getElem?_map]
  rcases hx : (sortBySeed players)[i]? with _ | p
  · have := List.getElem?_eq_some_iff.mpr ⟨by rw [length_sortBySeed]; exact hi, rfl⟩
    rw [hx] at this
    cases this
  · rfl

theorem playerIds_getD_ge (players : List Player) (i : Nat) (hi : players.length ≤ i) :
    (playerIdsOf players).getD i none = none := by
  rw [playerIdsOf, List.getD_eq_getElem?_getD]
  by_cases hlt : i < ((sortBySeed players).map (fun p => some p.id)).length
  · rw [List.length_map, length_sortBySeed] at hlt
    omega
  · rw [List.getElem?_append_right (by omega), List.getElem?_replicate]
    split <;> rfl

/-- The final player order entry at an in-range index: the seed there is in
    `[1, size]` and the slot is `playerIds[seed - 1]`. -/
theorem finalPlayerOrder_entry (players : List Player) (h2 : 2 ≤ players.length)
    (idx : Nat) (hidx : idx < bracketSizeOf players.length) :
    1 ≤ (getStandardSeedingOrder (bracketSizeOf players.length)).getD idx 0 ∧
    (getStandardSeedingOrder (bracketSizeOf players.length)).getD idx 0 ≤
      (bracketSizeOf players.length : Int) ∧
    (finalPlayerOrderOf players).getD idx none =
      (playerIdsOf players).getD
        ((getStandardSeedingOrder (bracketSizeOf players.length)).getD idx 0 - 1).toNat
        none := by
  obtain ⟨hsz2, _, _, _⟩ := bracketSize_facts players.length h2
  obtain ⟨hlen, hperm, _, _, _⟩ :=
    getStandardSeedingOrder_spec (bracketSizeOf players.length) ⟨_, rfl⟩ hsz2
  have hidx' : idx < (getStandardSeedingOrder (bracketSizeOf players.length)).length := by
    omega
  have hgd : (getStandardSeedingOrder (bracketSizeOf players.length)).getD idx 0 =
      (getStandardSeedingOrder (bracketSizeOf players.length))[idx] := by
    rw [List.getD_eq_getElem?_getD, List.getElem?_eq_getElem hidx']
    rfl
  have hmem : (getStandardSeedingOrder (bracketSizeOf players.length)).getD idx 0 ∈
      getStandardSeedingOrder (bracketSizeOf players.length) := by
    rw [hgd]
    exact List.getElem_mem hidx'
  have hbound := mem_seedRange.mp (hperm.mem_iff.mp hmem)
  refine ⟨hbound.1, hbound.2, ?_⟩
  rw [finalPlayerOrderOf, List.getD_eq_getElem?_getD, List.getElem?_map,
    List.getElem?_eq_getElem hidx', hgd]
  simp

/-- Core of C8: in every first-round pair at least one seed is at most
    `size / 2 < n`, so at least one slot is occupied. -/
theorem firstRound_slot_occupied (players : List Player) (h2 : 2 ≤ players.length)
    (i : Nat) (hi : i < bracketSizeOf players.length / 2) :
    ((finalPlayerOrderOf players).getD (i * 2) none).isSome = true ∨
    ((finalPlayerOrderOf players).getD (i * 2 + 1) none).isSome = true := by
  obtain ⟨hsz2, hszle, hszlt, hR1⟩ := bracketSize_facts players.length h2
  obtain ⟨hlen, hperm, hpairs, _, _⟩ :=
    getStandardSeedingOrder_spec (bracketSizeOf players.length) ⟨_, rfl⟩ hsz2
  have hi1 : i * 2 < bracketSizeOf players.length := by omega
  have hi2 : i * 2 + 1 < bracketSizeOf players.length := by omega
  obtain ⟨hs1lo, hs1hi, he1⟩ := finalPlayerOrder_entry players h2 (i * 2) hi1
  obtain ⟨hs2lo, hs2hi, he2⟩ := finalPlayerOrder_entry players h2 (i * 2 + 1) hi2
  have hsum := hpairs i (by omega)
  rw [show 2 * i = i * 2 by ring] at hsum
  by_contra hcontra
  push_neg at hcontra
  obtain ⟨hc1, hc2⟩ := hcontra
  have hn1 : (playerIdsOf players).getD
      ((getStandardSeedingOrder (bracketSizeOf players.length)).getD (i * 2) 0 - 1).toNat
      none = none := by
    rcases ho : (playerIdsOf players).getD _ none with _ | p
    · rfl
    · rw [he1, ho] at hc1
      simp at hc1
  have hn2 : (playerIdsOf players).getD
      ((getStandardSeedingOrder (bracketSizeOf players.length)).getD (i * 2 + 1) 0 - 1).toNat
      none = none := by
    rcases ho : (playerIdsOf players).getD _ none with _ | p
    · rfl
    · rw [he2, ho] at hc2
      simp at hc2
  have hge1 : players.length ≤
      ((getStandardSeedingOrder (bracketSizeOf players.length)).getD (i * 2) 0 - 1).toNat := by
    by_contra hlt
    push_neg at hlt
    have := playerIds_getD_lt players _ hlt
    rw [hn1] at this
    cases this
  have hge2 : players.length ≤
      ((getStandardSeedingOrder (bracketSizeOf players.length)).getD (i * 2 + 1) 0 - 1).toNat := by
    by_contra hlt
    push_neg at hlt
    have := playerIds_getD_lt players _ hlt
    rw [hn2] at this
    cases this
  omega

/-- C8: every first-round match of a generated bracket has at least one
    non-null player slot (no double byes), since the bracket size is less
    than twice the player count. -/
theorem generateBracket_no_double_bye (players : List Player)
    (h2 : 2 ≤ players.length) :
    ∀ (round0 : List Match), (generateBracket players).winners[0]? = some round0 →
      ∀ (i : Nat) (mt : Match), round0[i]? = some mt →
        mt.players.any (fun p => p.isSome) = true := by
  intro round0 h i mt hmt
  obtain ⟨base, hbase, hblen, hcore⟩ := winners_core players h2 0 round0 h
  simp only [List.getElem?_cons_zero, Option.some.injEq] at hbase
  obtain ⟨mt0, hmt0, hpl, _, _, _⟩ := hcore i mt hmt
  rw [← hbase, firstRoundOf, getElem?_mkFirstRound] at hmt0
  split at hmt0
  case isTrue hi =>
    cases hmt0
    rw [hpl, firstRoundMatch_players]
    rcases firstRound_slot_occupied players h2 i hi with hocc | hocc <;>
      rw [List.getD_eq_getElem?_getD] at hocc <;> simp [hocc]
  case isFalse hi =>
    cases hmt0

/-- Witness for C8 with three concrete players (a 4-slot bracket with a bye). -/
theorem generateBracket_no_double_bye_witness :
    2 ≤ ([(⟨"a", "", "", 1, ""⟩ : Player), ⟨"b", "", "", 2, ""⟩,
      ⟨"c", "", "", 3, ""⟩] : List Player).length ∧
    (∀ (round0 : List Match),
      (generateBracket [(⟨"a", "", "", 1, ""⟩ : Player), ⟨"b", "", "", 2, ""⟩,
        ⟨"c", "", "", 3, ""⟩]).winners[0]? = some round0 →
      ∀ (i : Nat) (mt : Match), round0[i]? = some mt →
        mt.players.any (fun p => p.isSome) = true) :=
  ⟨by decide, generateBracket_no_double_bye _ (by decide)⟩

theorem firstRoundOf_getElem? (players : List Player) (j : Nat) :
    (firstRoundOf players)[j]? =
      if j < bracketSizeOf players.length / 2 then
        some (firstRoundMatch (finalPlayerOrderOf players) j) else none := by
  rw [firstRoundOf]
  exact getElem?_mkFirstRound _ _ _

/-- A null first-round slot forces the seed there to exceed the player count. -/
theorem slot_none_seed_large (players : List Player) (h2 : 2 ≤ players.length)
    (idx : Nat) (hidx : idx < bracketSizeOf players.length)
    (hnone : (finalPlayerOrderOf players).getD idx none = none) :
    players.length < bracketSizeOf players.length := by
  obtain ⟨hs1lo, hs1hi, he1⟩ := finalPlayerOrder_entry players h2 idx hidx
  have hge : players.length ≤
      ((getStandardSeedingOrder (bracketSizeOf players.length)).getD idx 0 - 1).toNat := by
    by_contra hlt
    push_neg at hlt
    have hocc := playerIds_getD_lt players _ hlt
    rw [← he1, hnone] at hocc
    cases hocc
  omega

/-- C4: a first-round match is a bye exactly when exactly one of its two
    slots is null; a bye match has its winner set to the unique non-null
    player, and that winner is pre-placed in slot `i % 2` of match `⌊i / 2⌋`
    of round 1 without any score report. -/
theorem generateBracket_byes (players : List Player) (h2 : 2 ≤ players.length) :
    ∀ (round0 : List Match), (generateBracket players).winners[0]? = some round0 →
      ∀ (i : Nat) (mt : Match), round0[i]? = some mt →
        (∃ p1 p2, mt.players = [p1, p2] ∧
          (mt.isBye = true ↔
            ((p1.isSome = true ∧ p2 = none) ∨ (p1 = none ∧ p2.isSome = true))) ∧
          (mt.isBye = true →
            ((p1.isSome = true ∧ mt.winnerId = p1) ∨ (p1 = none ∧ mt.winnerId = p2)))) ∧
        (mt.isBye = true →
          ∃ (round1 : List Match) (mt2 : Match),
            (generateBracket players).winners[1]? = some round1 ∧
            round1[i / 2]? = some mt2 ∧ mt2.scores = [0, 0] ∧
            mt2.players.getD (i % 2) none = mt.winnerId) := by
  intro round0 h i mt hmt
  obtain ⟨hsz2, hszle, hszlt, hR1⟩ := bracketSize_facts players.length h2
  obtain ⟨base, hbase, hblen, hcore⟩ := winners_core players h2 0 round0 h
  simp only [List.getElem?_cons_zero, Option.some.injEq] at hbase
  obtain ⟨mt0, hmt0, hpl, hbye, hwin, hsc⟩ := hcore i mt hmt
  rw [← hbase, firstRoundOf, getElem?_mkFirstRound] at hmt0
  split at hmt0
  case isFalse hi => cases hmt0
  case isTrue hi =>
  cases hmt0
  constructor
  · refine ⟨(finalPlayerOrderOf players).getD (i * 2) none,
      (finalPlayerOrderOf players).getD (i * 2 + 1) none,
      by rw [hpl, firstRoundMatch_players], ?_, ?_⟩
    · rw [hbye, firstRoundMatch_isBye]
      rcases hp1 : (finalPlayerOrderOf players).getD (i * 2) none with _ | x <;>
        rcases hp2 : (finalPlayerOrderOf players).getD (i * 2 + 1) none with _ | y <;>
        simp
    · intro hb
      rw [hb] at hbye
      rw [hwin, firstRoundMatch_winnerId, if_pos hbye.symm]
      rcases hp1 : (finalPlayerOrderOf players).getD (i * 2) none with _ | x
      · right
        simp [hp1]
      · left
        simp [hp1]
  · intro hb
    rw [hb] at hbye
    have hfbye : (firstRoundMatch (finalPlayerOrderOf players) i).isBye = true := hbye.symm
    -- a bye means some in-range slot is null, so n < size and R ≥ 2
    have hnlt : players.length < bracketSizeOf players.length := by
      rw [firstRoundMatch_isBye] at hfbye
      rcases hp1 : (finalPlayerOrderOf players).getD (i * 2) none with _ | x
      · exact slot_none_seed_large players h2 (i * 2) (by omega) hp1
      · rcases hp2 : (finalPlayerOrderOf players).getD (i * 2 + 1) none with _ | y
        · exact slot_none_seed_large players h2 (i * 2 + 1) (by omega) hp2
        · rw [hp1, hp2] at hfbye
          simp at hfbye
    have hR2 : 2 ≤ Nat.clog 2 players.length := by
      by_contra hcon
      push_neg at hcon
      have hReq : Nat.clog 2 players.length = 1 := by omega
      have : bracketSizeOf players.length = 2 := by
        rw [bracketSizeOf, hReq, pow_one]
      omega
    obtain ⟨hWlen, _⟩ := winners_shape players h2
    have h1lt : 1 < (generateBracket players).winners.length := by omega
    have hx1 : (generateBracket players).winners[1]? =
        some ((generateBracket players).winners[1]) := List.getElem?_eq_getElem h1lt
    obtain ⟨base1, hbase1, hblen1, hcore1⟩ := winners_core players h2 1 _ hx1
    simp only [List.getElem?_cons_succ] at hbase1
    have hFlen := firstRound_len players h2
    have hF2 : 1 < (firstRoundOf players).length := by
      rw [hFlen]
      have : (2 : Nat) ^ 1 ≤ 2 ^ (Nat.clog 2 players.length - 1) :=
        Nat.pow_le_pow_right (by omega) (by omega)
      omega
    rw [buildRounds_eq_pos _ _ hF2] at hbase1
    simp only [List.getElem?_cons_zero, Option.some.injEq] at hbase1
    -- index bounds
    have hbslen : (firstRoundOf players).length = bracketSizeOf players.length / 2 := by
      rw [firstRoundOf, length_mkFirstRound]
    have hj2 : i / 2 < ((generateBracket players).winners[1]).length := by
      rw [hblen1, ← hbase1, length_buildNextRound]
      omega
    have hx2 : ((generateBracket players).winners[1])[i / 2]? =
        some (((generateBracket players).winners[1])[i / 2]) :=
      List.getElem?_eq_getElem hj2
    obtain ⟨mt20, hmt20, hpl2, _, _, hsc2⟩ := hcore1 (i / 2) _ hx2
    rw [← hbase1, getElem?_buildNextRound] at hmt20
    rcases Nat.mod_two_eq_zero_or_one i with hpar | hpar
    · have hieq : 2 * (i / 2) = i := by omega
      rw [hieq] at hmt20
      rw [firstRoundOf_getElem? players i, if_pos hi] at hmt20
      simp only [Option.map_some', Option.some.injEq] at hmt20
      refine ⟨_, _, hx1, hx2, ?_, ?_⟩
      · rw [hsc2, ← hmt20]
        rfl
      · rw [hpl2, ← hmt20, hpar]
        show (if (firstRoundMatch (finalPlayerOrderOf players) i).isBye = true
          then (firstRoundMatch (finalPlayerOrderOf players) i).winnerId
          else none) = mt.winnerId
        rw [if_pos hfbye]
        exact hwin.symm
    · have hieq : 2 * (i / 2) + 1 = i := by omega
      rw [hieq] at hmt20
      rw [firstRoundOf_getElem? players i, if_pos hi] at hmt20
      rw [firstRoundOf_getElem? players (2 * (i / 2)), if_pos (by omega)] at hmt20
      simp only [Option.map_some', Option.some.injEq] at hmt20
      refine ⟨_, _, hx1, hx2, ?_, ?_⟩
      · rw [hsc2, ← hmt20]
        rfl
      · rw [hpl2, ← hmt20, hpar]
        show (if (firstRoundMatch (finalPlayerOrderOf players) i).isBye = true
          then (firstRoundMatch (finalPlayerOrderOf players) i).winnerId
          else none) = mt.winnerId
        rw [if_pos hfbye]
        exact hwin.symm

/-- Witness for C4 with three concrete players (seed 1 gets a bye). -/
theorem generateBracket_byes_witness :
    2 ≤ ([(⟨"a", "", "", 1, ""⟩ : Player), ⟨"b", "", "", 2, ""⟩,
      ⟨"c", "", "", 3, ""⟩] : List Player).length ∧
    (∀ (round0 : List Match),
      (generateBracket [(⟨"a", "", "", 1, ""⟩ : Player), ⟨"b", "", "", 2, ""⟩,
        ⟨"c", "", "", 3, ""⟩]).winners[0]? = some round0 →
      ∀ (i : Nat) (mt : Match), round0[i]? = some mt →
        (∃ p1 p2, mt.players = [p1, p2] ∧
          (mt.isBye = true ↔
            ((p1.isSome = true ∧ p2 = none) ∨ (p1 = none ∧ p2.isSome = true))) ∧
          (mt.isBye = true →
            ((p1.isSome = true ∧ mt.winnerId = p1) ∨ (p1 = none ∧ mt.winnerId = p2)))) ∧
        (mt.isBye = true →
          ∃ (round1 : List Match) (mt2 : Match),
            (generateBracket [(⟨"a", "", "", 1, ""⟩ : Player), ⟨"b", "", "", 2, ""⟩,
              ⟨"c", "", "", 3, ""⟩]).winners[1]? = some round1 ∧
            round1[i / 2]? = some mt2 ∧ mt2.scores = [0, 0] ∧
            mt2.players.getD (i % 2) none = mt.winnerId)) :=
  ⟨by decide, generateBracket_byes _ (by decide)⟩

/-! ### Decimal representation facts: match ids are injective in (round, index) -/

/-- Big-endian decimal digit characters of `n`. -/
def decDigits (n : Nat) : List Char := ((Nat.digits 10 n).map Nat.digitChar).reverse

theorem toDigitsCore_eq :
    ∀ (n fuel : Nat) (ds : List Char), n < fuel →
      Nat.toDigitsCore 10 fuel n ds = (if n = 0 then ['0'] else decDigits n) ++ ds := by
  intro n
  induction n using Nat.strong_induction_on with
  | _ n ih =>
    intro fuel ds hfuel
    match fuel, hfuel with
    | fuel + 1, _ =>
      rw [Nat.toDigitsCore]
      by_cases hdiv : n / 10 = 0
      · simp only [hdiv, if_true, reduceIte]
        by_cases hn : n = 0
        · subst hn
          rfl
        · rw [if_neg hn]
          have h10 : n < 10 := by omega
          have hdig : Nat.digits 10 n = [n] := by
            rw [Nat.digits_def' (by norm_num : (1 : ℕ) < 10) (by omega), hdiv,
              Nat.mod_eq_of_lt h10]
            simp
          rw [decDigits, hdig, Nat.mod_eq_of_lt h10]
          simp
      · simp only [hdiv, if_false, reduceIte]
        have hlt : n / 10 < fuel := by omega
        rw [ih (n / 10) (by omega) fuel _ hlt, if_neg hdiv]
        have hstep : decDigits n = decDigits (n / 10) ++ [Nat.digitChar (n % 10)] := by
          rw [decDigits, decDigits,
            Nat.digits_def' (by norm_num : (1 : ℕ) < 10) (by omega)]
          simp
        rw [hstep, if_neg (show n ≠ 0 by omega)]
        simp

theorem repr_data (n : Nat) :
    (Nat.repr n).data = if n = 0 then ['0'] else decDigits n := by
  show (Nat.toDigits 10 n).asString.data = _
  rw [Nat.toDigits, toDigitsCore_eq n (n + 1) [] (by omega)]
  simp [List.asString]

theorem repr_digit (n : Nat) : ∀ c ∈ (Nat.repr n).data, c.isDigit = true := by
  rw [repr_data]
  split
  · intro c hc
    simp only [List.mem_singleton] at hc
    subst hc
    decide
  · intro c hc
    rw [decDigits] at hc
    simp only [List.mem_reverse, List.mem_map] at hc
    obtain ⟨d, hd, rfl⟩ := hc
    have hlt := Nat.digits_lt_base (by norm_num) hd
    have hall : ∀ d, d < 10 → (Nat.digitChar d).isDigit = true := by decide
    exact hall d hlt

theorem repr_no_W (n : Nat) : 'W' ∉ (Nat.repr n).data := by
  intro h
  have := repr_digit n _ h
  simp [Char.isDigit] at this

theorem digitChar_inj : ∀ a, a < 10 → ∀ b, b < 10 →
    Nat.digitChar a = Nat.digitChar b → a = b := by decide

theorem map_digitChar_inj :
    ∀ (l₁ l₂ : List Nat), (∀ d ∈ l₁, d < 10) → (∀ d ∈ l₂, d < 10) →
      l₁.map Nat.digitChar = l₂.map Nat.digitChar → l₁ = l₂
  | [], [], _, _, _ => rfl
  | [], _ :: _, _, _, h => by simp at h
  | _ :: _, [], _, _, h => by simp at h
  | a :: t₁, b :: t₂, h₁, h₂, h => by
    simp only [List.map_cons, List.cons.injEq] at h
    have hab : a = b :=
      digitChar_inj a (h₁ a (by simp)) b (h₂ b (by simp)) h.1
    have ht : t₁ = t₂ :=
      map_digitChar_inj t₁ t₂ (fun d hd => h₁ d (by simp [hd]))
        (fun d hd => h₂ d (by simp [hd])) h.2
    rw [hab, ht]

theorem decDigits_ne_zero_str (n : Nat) (hn : n ≠ 0) : decDigits n ≠ ['0'] := by
  intro h
  rw [decDigits] at h
  have hmap : (Nat.digits 10 n).map Nat.digitChar = ['0'] := by
    have := congrArg List.reverse h
    simpa using this
  rcases hdig : Nat.digits 10 n with _ | ⟨d, rest⟩
  · rw [hdig] at hmap
    simp at hmap
  · rw [hdig] at hmap
    simp only [List.map_cons, List.cons.injEq] at hmap
    have hrest : rest = [] := by
      rcases rest with _ | _
      · rfl
      · simp at hmap
    subst hrest
    have hd10 : d < 10 := Nat.digits_lt_base (by norm_num) (by rw [hdig]; simp)
    have hd0 : d = 0 := digitChar_inj d hd10 0 (by omega) (by simpa using hmap.1)
    subst hd0
    have hof := Nat.ofDigits_digits 10 n
    rw [hdig] at hof
    simp [Nat.ofDigits] at hof
    exact hn hof.symm

theorem repr_data_inj (m n : Nat) (h : (Nat.repr m).data = (Nat.repr n).data) :
    m = n := by
  rw [repr_data, repr_data] at h
  by_cases hm : m = 0 <;> by_cases hn : n = 0
  · omega
  · rw [if_pos hm, if_neg hn] at h
    exact absurd h.symm (decDigits_ne_zero_str n hn)
  · rw [if_neg hm, if_pos hn] at h
    exact absurd h (decDigits_ne_zero_str m hm)
  · rw [if_neg hm, if_neg hn] at h
    have hrev := congrArg List.reverse h
    rw [decDigits, decDigits] at hrev
    simp only [List.reverse_reverse] at hrev
    have hdig := map_digitChar_inj _ _
      (fun d hd => Nat.digits_lt_base (by norm_num) hd)
      (fun d hd => Nat.digits_lt_base (by norm_num) hd) hrev
    exact Nat.digits.injective 10 hdig

theorem append_sep_inj :
    ∀ (l₁ r₁ l₂ r₂ : List Char), 'W' ∉ l₁ → 'W' ∉ l₂ →
      l₁ ++ 'W' :: r₁ = l₂ ++ 'W' :: r₂ → l₁ = l₂ ∧ r₁ = r₂
  | [], r₁, [], r₂, _, _, h => by simpa using h
  | [], r₁, b :: t₂, r₂, _, h₂, h => by
    simp only [List.nil_append, List.cons_append, List.cons.injEq] at h
    exact absurd (by simp [← h.1]) h₂
  | a :: t₁, r₁, [], r₂, h₁, _, h => by
    simp only [List.nil_append, List.cons_append, List.cons.injEq] at h
    exact absurd (by simp [h.1]) h₁
  | a :: t₁, r₁, b :: t₂, r₂, h₁, h₂, h => by
    simp only [List.cons_append, List.cons.injEq] at h
    obtain ⟨ht, hr⟩ := append_sep_inj t₁ r₁ t₂ r₂
      (fun hc => h₁ (by simp [hc])) (fun hc => h₂ (by simp [hc])) h.2
    exact ⟨by rw [h.1, ht], hr⟩

theorem matchId_inj (r m r' m' : Nat) (h : matchId r m = matchId r' m') :
    r = r' ∧ m = m' := by
  rw [matchId, matchId] at h
  have hd := congrArg String.data h
  simp only [String.data_append, List.append_assoc] at hd
  simp only [List.singleton_append] at hd
  obtain ⟨h1, h2⟩ := append_sep_inj _ _ _ _ (repr_no_W _) (repr_no_W _) hd
  have e1 := repr_data_inj _ _ h1
  have e2 := repr_data_inj _ _ h2
  omega

/-! ### C5: unique winner, unique next match -/

theorem round_ids (players : List Player) (h2 : 2 ≤ players.length)
    (r : Nat) (round : List Match)
    (h : (generateBracket players).winners[r]? = some round) :
    round.map (fun mt => mt.id) = (List.range round.length).map (matchId r) := by
  obtain ⟨_, hsh⟩ := winners_shape players h2
  obtain ⟨hlen, hmatch⟩ := hsh r round h
  apply List.ext_getElem?
  intro j
  by_cases hj : j < round.length
  · rw [List.getElem?_map, List.getElem?_eq_getElem hj, List.getElem?_map,
      List.getElem?_range hj]
    obtain ⟨hid, _, _, _, _⟩ := hmatch j _ (List.getElem?_eq_getElem hj)
    simp [hid]
  · rw [List.getElem?_map, List.getElem?_eq_none (by omega), List.getElem?_map,
      List.getElem?_eq_none (by simpa using hj)]
    rfl

theorem countP_id_round (players : List Player) (h2 : 2 ≤ players.length)
    (r : Nat) (round : List Match)
    (h : (generateBracket players).winners[r]? = some round) (a b : Nat) :
    round.countP (fun mt => mt.id == matchId a b) =
      if a = r ∧ b < round.length then 1 else 0 := by
  have hcnt : round.countP (fun mt => mt.id == matchId a b) =
      List.count (matchId a b) (round.map (fun mt => mt.id)) := by
    rw [List.count, List.countP_map]
    rfl
  rw [hcnt, round_ids players h2 r round h]
  by_cases hin : a = r ∧ b < round.length
  · rw [if_pos hin]
    apply List.count_eq_one_of_mem
    · refine List.Nodup.map ?_ (List.nodup_range _)
      intro x y hxy
      exact (matchId_inj r x r y hxy).2
    · rw [hin.1]
      exact List.mem_map.mpr ⟨b, List.mem_range.mpr hin.2, rfl⟩
  · rw [if_neg hin]
    rw [List.count_eq_zero]
    intro hmem
    obtain ⟨x, hx, hxe⟩ := List.mem_map.mp hmem
    obtain ⟨he1, he2⟩ := matchId_inj r x a b hxe
    rw [List.mem_range] at hx
    omega

theorem sum_ite_eq_range :
    ∀ (R a : Nat), a < R →
      (((List.range R).map (fun r => if a = r then 1 else 0)).sum = 1)
  | 0, a, ha => by omega
  | R + 1, a, ha => by
    rw [List.range_succ, List.map_append, List.sum_append]
    by_cases haR : a = R
    · have hz : ((List.range R).map (fun r => if a = r then 1 else 0)).sum = 0 := by
        have : (List.range R).map (fun r => if a = r then 1 else 0) =
            (List.range R).map (fun _ => 0) := by
          apply List.map_congr_left
          intro x hx
          rw [List.mem_range] at hx
          rw [if_neg (by omega)]
        rw [this]
        simp
      rw [hz]
      simp [haR]
    · rw [sum_ite_eq_range R a (by omega)]
      simp [haR]

theorem bracket_id_count (players : List Player) (h2 : 2 ≤ players.length)
    (a b : Nat) (ha : a < Nat.clog 2 players.length)
    (hb : b < 2 ^ (Nat.clog 2 players.length - 1 - a)) :
    (generateBracket players).winners.flatten.countP
      (fun mt => mt.id == matchId a b) = 1 := by
  obtain ⟨hW, hsh⟩ := winners_shape players h2
  rw [List.countP_flatten]
  have hmap : (generateBracket players).winners.map
      (List.countP (fun mt => mt.id == matchId a b)) =
      (List.range (Nat.clog 2 players.length)).map
        (fun r => if a = r then 1 else 0) := by
    apply List.ext_getElem?
    intro r
    by_cases hr : r < Nat.clog 2 players.length
    · have hx : (generateBracket players).winners[r]? =
          some ((generateBracket players).winners[r]) :=
        List.getElem?_eq_getElem (by omega)
      rw [List.getElem?_map, hx, List.getElem?_map, List.getElem?_range hr]
      obtain ⟨hlen, _⟩ := hsh r _ hx
      simp only [Option.map_some', Option.some.injEq]
      rw [countP_id_round players h2 r _ hx a b, hlen]
      by_cases har : a = r
      · subst har
        rw [if_pos ⟨rfl, hb⟩, if_pos rfl]
      · rw [if_neg (by tauto), if_neg har]
    · rw [List.getElem?_map, List.getElem?_eq_none (by omega), List.getElem?_map,
        List.getElem?_eq_none (by simpa using hr)]
      rfl
  rw [hmap]
  exact sum_ite_eq_range _ a ha

/-- C5 (amended): every match has at most one stored winner; every match of a
    non-final round names via `nextMatchId` the id of exactly one match of the
    bracket (the parity-chosen slot of that unique next match is where the
    winner goes, per C2); the single final-round match has no next match. -/
theorem generateBracket_unique_next (players : List Player) (h2 : 2 ≤ players.length) :
    ∀ (r : Nat) (round : List Match) (j : Nat) (mt : Match),
      (generateBracket players).winners[r]? = some round → round[j]? = some mt →
      (∀ w1 w2 : String, mt.winnerId = some w1 → mt.winnerId = some w2 → w1 = w2) ∧
      (if r + 1 < Nat.clog 2 players.length then
        ∃ nid, mt.nextMatchId = some nid ∧
          (generateBracket players).winners.flatten.countP
            (fun x => x.id == nid) = 1
      else mt.nextMatchId = none) := by
  intro r round j mt h hmt
  obtain ⟨hW, hsh⟩ := winners_shape players h2
  obtain ⟨hlen, hmatch⟩ := hsh r round h
  obtain ⟨_, _, _, hnx, _⟩ := hmatch j mt hmt
  refine ⟨fun w1 w2 e1 e2 => by rw [e1] at e2; cases e2; rfl, ?_⟩
  by_cases hr1 : r + 1 < Nat.clog 2 players.length
  · rw [if_pos hr1]
    refine ⟨matchId (r + 1) (j / 2), by rw [hnx, if_pos hr1], ?_⟩
    have hjlt : j < round.length := by
      obtain ⟨hj, _⟩ := List.getElem?_eq_some_iff.mp hmt
      exact hj
    have hpow : (2 : Nat) ^ (Nat.clog 2 players.length - 1 - r) =
        2 ^ (Nat.clog 2 players.length - 1 - (r + 1)) * 2 := by
      rw [← pow_succ]
      congr 1
      omega
    refine bracket_id_count players h2 (r + 1) (j / 2) hr1 ?_
    rw [hlen, hpow] at hjlt
    omega
  · rw [if_neg hr1, hnx, if_neg hr1]

/-- Witness for the amended C5 with three concrete players. -/
theorem generateBracket_unique_next_witness :
    2 ≤ ([(⟨"a", "", "", 1, ""⟩ : Player), ⟨"b", "", "", 2, ""⟩,
      ⟨"c", "", "", 3, ""⟩] : List Player).length ∧
    (∀ (r : Nat) (round : List Match) (j : Nat) (mt : Match),
      (generateBracket [(⟨"a", "", "", 1, ""⟩ : Player), ⟨"b", "", "", 2, ""⟩,
        ⟨"c", "", "", 3, ""⟩]).winners[r]? = some round → round[j]? = some mt →
      (∀ w1 w2 : String, mt.winnerId = some w1 → mt.winnerId = some w2 → w1 = w2) ∧
      (if r + 1 < Nat.clog 2 ([(⟨"a", "", "", 1, ""⟩ : Player), ⟨"b", "", "", 2, ""⟩,
          ⟨"c", "", "", 3, ""⟩] : List Player).length then
        ∃ nid, mt.nextMatchId = some nid ∧
          (generateBracket [(⟨"a", "", "", 1, ""⟩ : Player), ⟨"b", "", "", 2, ""⟩,
            ⟨"c", "", "", 3, ""⟩]).winners.flatten.countP
              (fun x => x.id == nid) = 1
      else mt.nextMatchId = none)) :=
  ⟨by decide, generateBracket_unique_next _ (by decide)⟩

/-- Counterexample to C5 as stated: with two players the bracket is a single
    grand-finals match whose `nextMatchId` is null — it has no next match to
    feed into, so "every match has exactly one next match" fails. -/
theorem grandFinals_has_no_next_match :
    (generateBracket [(⟨"a", "", "", 1, ""⟩ : Player), ⟨"b", "", "", 2, ""⟩]).winners =
      [[{ id := "1W1", roundIndex := 0, matchIndex := 0,
          players := [some "a", some "b"], scores := [0, 0], winnerId := none,
          isBye := false, nextMatchId := none, justCompleted := false,
          isGrandFinals := true }]] := by
  have h1 : Nat.clog 2 2 = 1 := Nat.clog_eq_one (by omega) (by omega)
  have h2 : getStandardSeedingOrder 2 = [1, 2] := by
    rw [getStandardSeedingOrder, if_neg (by omega), buildSeedOrder]
    norm_num
  have h3 : ∀ fr : List Match, fr.length = 1 → buildRounds fr 1 = [] := by
    intro fr hfr
    rw [buildRounds]
    simp [hfr]
  simp only [generateBracket]
  norm_num [h1, h2, sortBySeed, List.mergeSort]
  rw [h3 _ (by simp [mkFirstRound])]
  simp [mkFirstRound, firstRoundMatch, assignNextIds, markGrandFinals, matchId,
    List.range_succ]
  decide

/-! ### Find/update lemmas for match advancement and reversal -/

theorem setWinner_id (w : String) (sc : List Int) (m : Match) :
    (setWinner w sc m).id = m.id := rfl

theorem setPlayerSlot_id (i : Nat) (p : Option String) (m : Match) :
    (setPlayerSlot i p m).id = m.id := rfl

theorem clearWinner_id (m : Match) : (clearWinner m).id = m.id := rfl

theorem clearSlotOfWinner_id (w : String) (m : Match) :
    (clearSlotOfWinner w m).id = m.id := by
  rw [clearSlotOfWinner]
  split <;> rfl

/-- Replacing the first `mid`-match in a round: characterization of `find?`
    on the result, for id-preserving transforms. -/
theorem updFirstInRound_spec (mid : String) (f : Match → Match)
    (hf : ∀ m, (f m).id = m.id) :
    ∀ round : List Match,
      (updFirstInRound mid f round = none ↔
        round.find? (fun m => m.id == mid) = none) ∧
      (∀ round', updFirstInRound mid f round = some round' →
        round'.find? (fun m => m.id == mid) =
          (round.find? (fun m => m.id == mid)).map f ∧
        (∀ j, j ≠ mid →
          round'.find? (fun m => m.id == j) = round.find? (fun m => m.id == j)))
  | [] => by
    constructor
    · simp [updFirstInRound]
    · intro round' h
      simp [updFirstInRound] at h
  | m :: rest => by
    by_cases hid : m.id = mid
    · constructor
      · simp [updFirstInRound, hid]
      · intro round' h
        simp only [updFirstInRound, if_pos hid, Option.some.injEq] at h
        subst h
        constructor
        · rw [List.find?_cons_of_pos _ (by simp [hf, hid]),
            List.find?_cons_of_pos _ (by simp [hid])]
          rfl
        · intro j hj
          rw [List.find?_cons_of_neg _ (by simp [hf, hid]; exact fun hc => hj hc.symm),
            List.find?_cons_of_neg _ (by simp [hid]; exact fun hc => hj hc.symm)]
    · have ih := updFirstInRound_spec mid f hf rest
      constructor
      · simp only [updFirstInRound, if_neg hid]
        rw [List.find?_cons_of_neg _ (by simp [hid])]
        constructor
        · intro h
          exact ih.1.mp (Option.map_eq_none'.mp h)
        · intro h
          rw [ih.1.mpr h]
          rfl
      · intro round' h
        simp only [updFirstInRound, if_neg hid] at h
        rcases hx : updFirstInRound mid f rest with _ | r
        · rw [hx] at h
          cases h
        · rw [hx] at h
          simp only [Option.map_some', Option.some.injEq] at h
          subst h
          obtain ⟨ih1, ih2⟩ := ih.2 r hx
          constructor
          · rw [List.find?_cons_of_neg _ (by simp [hid]),
              List.find?_cons_of_neg _ (by simp [hid])]
            exact ih1
          · intro j hj
            by_cases hmj : m.id = j
            · rw [List.find?_cons_of_pos _ (by simp [hmj]),
                List.find?_cons_of_pos _ (by simp [hmj])]
            · rw [List.find?_cons_of_neg _ (by simp [hmj]),
                List.find?_cons_of_neg _ (by simp [hmj])]
              exact ih2 j hj

/-- `findFirstMatch` after updating the first `mid`-match across rounds. -/
theorem findFirstMatch_updFirstMatch (mid : String) (f : Match → Match)
    (hf : ∀ m, (f m).id = m.id) :
    ∀ rounds : List (List Match),
      findFirstMatch mid (updFirstMatch mid f rounds) =
        (findFirstMatch mid rounds).map f ∧
      (∀ j, j ≠ mid →
        findFirstMatch j (updFirstMatch mid f rounds) = findFirstMatch j rounds)
  | [] => by constructor <;> simp [updFirstMatch, findFirstMatch]
  | round :: rest => by
    rcases hx : updFirstInRound mid f round with _ | round'
    · have hnone := (updFirstInRound_spec mid f hf round).1.mp hx
      have ih := findFirstMatch_updFirstMatch mid f hf rest
      constructor
      · rw [updFirstMatch]
        rw [hx]
        rw [findFirstMatch, hnone, findFirstMatch, hnone]
        exact ih.1
      · intro j hj
        rw [updFirstMatch, hx, findFirstMatch, findFirstMatch]
        rcases hy : round.find? (fun m => m.id == j) with _ | mj
        · rw [hy]
          exact ih.2 j hj
        · rw [hy]
    · obtain ⟨h1, h2⟩ := (updFirstInRound_spec mid f hf round).2 round' hx
      constructor
      · rw [updFirstMatch, hx, findFirstMatch, h1, findFirstMatch]
        rcases hy : round.find? (fun m => m.id == mid) with _ | mm <;> rw [hy]
        · have hcontra := (updFirstInRound_spec mid f hf round).1.mpr hy
          rw [hx] at hcontra
          cases hcontra
        · rfl
      · intro j hj
        rw [updFirstMatch, hx, findFirstMatch, h2 j hj, findFirstMatch]

theorem checkNextInRound_none (nid w : String) (round : List Match)
    (hy : round.find? (fun m => m.id == nid) = none) :
    checkNextInRound nid w round = Except.ok round := by
  rw [checkNextInRound, hy]

theorem checkNextInRound_some (nid w : String) (round : List Match) (nm : Match)
    (hy : round.find? (fun m => m.id == nid) = some nm) :
    checkNextInRound nid w round =
      (if optTruthy nm.winnerId = true then
        Except.error "Cannot reverse this match because a subsequent match has already been played. Please reverse the later match first."
      else Except.ok ((updFirstInRound nid (clearSlotOfWinner w) round).getD round)) := by
  rw [checkNextInRound, hy]

theorem checkNextRounds_cons (nid w : String) (round : List Match)
    (rest : List (List Match)) :
    checkNextRounds nid w (round :: rest) =
      (match checkNextInRound nid w round with
      | Except.error e => Except.error e
      | Except.ok r =>
        match checkNextRounds nid w rest with
        | Except.error e => Except.error e
        | Except.ok rs => Except.ok (r :: rs)) := rfl

/-- `checkNextMatch` errors exactly when some round has a first `nid`-match
    that already has a (truthy) winner. -/
theorem checkNextRounds_error_iff (nid w : String) :
    ∀ rounds : List (List Match),
      (∃ e, checkNextRounds nid w rounds = Except.error e) ↔
      ∃ round ∈ rounds, ∃ nm, round.find? (fun x => x.id == nid) = some nm ∧
        optTruthy nm.winnerId = true
  | [] => by
    constructor
    · rintro ⟨e, he⟩
      cases he
    · rintro ⟨round, hr, _⟩
      cases hr
  | round :: rest => by
    rw [checkNextRounds_cons]
    rcases hy : round.find? (fun m => m.id == nid) with _ | nm
    · rw [checkNextInRound_none nid w round hy]
      rcases hz : checkNextRounds nid w rest with e | rs
      · constructor
        · intro _
          obtain ⟨r2, hr2, hnm⟩ := (checkNextRounds_error_iff nid w rest).mp ⟨e, hz⟩
          exact ⟨r2, by simp [hr2], hnm⟩
        · intro _
          exact ⟨e, rfl⟩
      · constructor
        · rintro ⟨e, he⟩
          cases he
        · rintro ⟨r2, hr2, nm, hnm, htr⟩
          rcases List.mem_cons.mp hr2 with rfl | hr2p
          · rw [hy] at hnm
            cases hnm
          · obtain ⟨e, he⟩ :=
              (checkNextRounds_error_iff nid w rest).mpr ⟨r2, hr2p, nm, hnm, htr⟩
            rw [he] at hz
            cases hz
    · rw [checkNextInRound_some nid w round nm hy]
      by_cases htr : optTruthy nm.winnerId = true
      · rw [if_pos htr]
        constructor
        · intro _
          exact ⟨round, by simp, nm, hy, htr⟩
        · intro _
          exact ⟨_, rfl⟩
      · rw [if_neg htr]
        rcases hz : checkNextRounds nid w rest with e | rs
        · constructor
          · intro _
            obtain ⟨r2, hr2, hnm⟩ := (checkNextRounds_error_iff nid w rest).mp ⟨e, hz⟩
            exact ⟨r2, by simp [hr2], hnm⟩
          · intro _
            exact ⟨e, rfl⟩
        · constructor
          · rintro ⟨e, he⟩
            cases he
          · rintro ⟨r2, hr2, nmp, hnmp, htrp⟩
            rcases List.mem_cons.mp hr2 with rfl | hr2p
            · rw [hy] at hnmp
              cases hnmp
              exact absurd htrp htr
            · obtain ⟨e, he⟩ :=
                (checkNextRounds_error_iff nid w rest).mpr ⟨r2, hr2p, nmp, hnmp, htrp⟩
              rw [he] at hz
              cases hz

/-- When `checkNextMatch` succeeds, the rounds are unchanged except that the
    first `nid`-match of each round had the original winner slot nulled. -/
theorem checkNextRounds_ok (nid w : String) :
    ∀ (rounds rounds2 : List (List Match)),
      checkNextRounds nid w rounds = Except.ok rounds2 →
      (∀ j, j ≠ nid → findFirstMatch j rounds2 = findFirstMatch j rounds) ∧
      findFirstMatch nid rounds2 =
        (findFirstMatch nid rounds).map (clearSlotOfWinner w)
  | [], rounds2, h => by
    cases h
    constructor
    · intro j _
      rfl
    · rfl
  | round :: rest, rounds2, h => by
    rw [checkNextRounds_cons] at h
    rcases hy : round.find? (fun m => m.id == nid) with _ | nm
    · rw [checkNextInRound_none nid w round hy] at h
      rcases hz : checkNextRounds nid w rest with e | rs <;> rw [hz] at h
      · cases h
      · cases h
        obtain ⟨ih1, ih2⟩ := checkNextRounds_ok nid w rest rs hz
        constructor
        · intro j hj
          rw [findFirstMatch, findFirstMatch]
          rcases hw : round.find? (fun m => m.id == j) with _ | mj
          · rw [hw]
            exact ih1 j hj
          · rw [hw]
        · rw [findFirstMatch, findFirstMatch, hy]
          exact ih2
    · rw [checkNextInRound_some nid w round nm hy] at h
      by_cases htr : optTruthy nm.winnerId = true
      · rw [if_pos htr] at h
        cases h
      · rw [if_neg htr] at h
        rcases hz : checkNextRounds nid w rest with e | rs <;> rw [hz] at h
        · cases h
        · cases h
          obtain ⟨ih1, ih2⟩ := checkNextRounds_ok nid w rest rs hz
          rcases hu : updFirstInRound nid (clearSlotOfWinner w) round with _ | round2
          · have hcontra := (updFirstInRound_spec nid _
              (clearSlotOfWinner_id w) round).1.mp hu
            rw [hcontra] at hy
            cases hy
          · obtain ⟨h1, h2⟩ := (updFirstInRound_spec nid _
              (clearSlotOfWinner_id w) round).2 round2 hu
            constructor
            · intro j hj
              rw [findFirstMatch, findFirstMatch]
              simp only [hu, Option.getD_some]
              rw [h2 j hj]
              rcases hw : round.find? (fun m => m.id == j) with _ | mj
              · rw [hw]
                exact ih1 j hj
              · rw [hw]
            · rw [findFirstMatch, findFirstMatch]
              simp only [hu, Option.getD_some]
              rw [h1, hy]
              rfl

/-! ### C2: updateMatchWinner sets the winner and advances by parity -/

theorem transformTournament_bracket_only (br : Option Bracket) (t : Tournament) :
    transformTournament { bracket := some br } t = { t with bracket := br } := by
  rw [transformTournament]
  have hpend : applyUpdates t { bracket := some br } = { t with bracket := br } := rfl
  rw [hpend]
  have h1 : ¬(t.status = TournamentStatus.REGISTRATION_OPEN ∧
      ({ t with bracket := br } : Tournament).status = TournamentStatus.IN_PROGRESS) := by
    rintro ⟨ha, hb⟩
    simp only [] at hb
    rw [ha] at hb
    cases hb
  have h2 : ¬(t.status = TournamentStatus.IN_PROGRESS ∧
      ({ t with bracket := br } : Tournament).status = TournamentStatus.REGISTRATION_OPEN) := by
    rintro ⟨ha, hb⟩
    simp only [] at hb
    rw [ha] at hb
    cases hb
  rw [if_neg h1, if_neg h2]

theorem updateTournament_bracket_fst (ts : List Tournament) (tid : String)
    (br : Option Bracket) :
    (updateTournament ts tid { bracket := some br }).1 =
      ts.map (fun t => if t.id = tid then { t with bracket := br } else t) := by
  rw [updateTournament]
  apply List.map_congr_left
  intro t _
  by_cases h : t.id = tid
  · rw [if_pos h, if_pos h, transformTournament_bracket_only]
  · rw [if_neg h, if_neg h]

/-- C2: when the stored tournament's bracket contains the reported match with
    a truthy `nextMatchId`, the stored bracket gets the match's winner and
    scores set, and the winner is written into slot `matchIndex % 2` of the
    next match (slot 0 for even, slot 1 for odd), overwriting any occupant. -/
theorem updateMatchWinner_spec (ts : List Tournament) (tid mid w : String)
    (sc : List Int) (t : Tournament) (br : Bracket) (m nm : Match) (nid : String)
    (ht : ts.find? (fun x => x.id == tid) = some t)
    (hbr : t.bracket = some br)
    (hm : findFirstMatch mid br.winners = some m)
    (hnx : m.nextMatchId = some nid)
    (htr : optTruthy m.nextMatchId = true)
    (hnm : findFirstMatch nid br.winners = some nm)
    (hlen2 : 2 ≤ nm.players.length) :
    ∃ rounds2 : List (List Match),
      (updateMatchWinner ts tid mid w sc).1 =
        ts.map (fun x => if x.id = tid then { x with bracket := some ⟨rounds2⟩ } else x) ∧
      (∃ m2, findFirstMatch mid rounds2 = some m2 ∧
        m2.winnerId = some w ∧ m2.scores = sc ∧ m2.justCompleted = true) ∧
      (∃ nm2, findFirstMatch nid rounds2 = some nm2 ∧
        nm2.players = nm.players.set (m.matchIndex % 2) (some w) ∧
        nm2.players.getD (m.matchIndex % 2) none = some w) := by
  have hadv : advanceBracket br mid w sc =
      ⟨updFirstMatch nid (setPlayerSlot (m.matchIndex % 2) (some w))
        (updFirstMatch mid (setWinner w sc) br.winners)⟩ := by
    have htr2 : optTruthy (some nid) = true := by
      rw [← hnx]
      exact htr
    rw [advanceBracket]
    simp only [hm, hnx, htr2, if_true]
  have hW := findFirstMatch_updFirstMatch mid (setWinner w sc)
    (setWinner_id w sc) br.winners
  have hS := findFirstMatch_updFirstMatch nid
    (setPlayerSlot (m.matchIndex % 2) (some w)) (setPlayerSlot_id _ _)
    (updFirstMatch mid (setWinner w sc) br.winners)
  have h1a : findFirstMatch mid (updFirstMatch mid (setWinner w sc) br.winners) =
      some (setWinner w sc m) := by
    rw [hW.1, hm]
    rfl
  have hnid1 : findFirstMatch nid (updFirstMatch mid (setWinner w sc) br.winners) =
      some nm ∨
      (nid = mid ∧ findFirstMatch nid (updFirstMatch mid (setWinner w sc) br.winners) =
        some (setWinner w sc m) ∧ nm = m) := by
    by_cases heq : nid = mid
    · subst heq
      right
      refine ⟨rfl, h1a, ?_⟩
      rw [hm] at hnm
      cases hnm
      rfl
    · left
      rw [hW.2 nid heq, hnm]
  refine ⟨updFirstMatch nid (setPlayerSlot (m.matchIndex % 2) (some w))
    (updFirstMatch mid (setWinner w sc) br.winners), ?_, ?_, ?_⟩
  · rw [updateMatchWinner]
    simp only [ht, hbr, hadv]
    exact updateTournament_bracket_fst ts tid _
  · by_cases heq : nid = mid
    · subst heq
      refine ⟨setPlayerSlot (m.matchIndex % 2) (some w) (setWinner w sc m), ?_, rfl, rfl, rfl⟩
      rw [hS.1, h1a]
      rfl
    · refine ⟨setWinner w sc m, ?_, rfl, rfl, rfl⟩
      rw [hS.2 mid (fun hc => heq hc.symm), h1a]
  · have hk2 : m.matchIndex % 2 < nm.players.length := by
      have := Nat.mod_lt m.matchIndex (y := 2) (by omega)
      omega
    rcases hnid1 with hcase | ⟨heq, hcase, hnmm⟩
    · refine ⟨setPlayerSlot (m.matchIndex % 2) (some w) nm, ?_, rfl, ?_⟩
      · rw [hS.1, hcase]
        rfl
      · show (nm.players.set (m.matchIndex % 2) (some w)).getD (m.matchIndex % 2) none =
          some w
        rw [List.getD_eq_getElem?_getD, List.getElem?_set_self (by simpa using hk2)]
        rfl
    · refine ⟨setPlayerSlot (m.matchIndex % 2) (some w) (setWinner w sc m), ?_, ?_, ?_⟩
      · rw [hS.1, hcase]
        rfl
      · show (setWinner w sc m).players.set (m.matchIndex % 2) (some w) =
          nm.players.set (m.matchIndex % 2) (some w)
        rw [hnmm]
        rfl
      · show ((setWinner w sc m).players.set (m.matchIndex % 2) (some w)).getD
          (m.matchIndex % 2) none = some w
        rw [List.getD_eq_getElem?_getD, List.getElem?_set_self
          (by rw [hnmm] at hk2; simpa using hk2)]
        rfl

/-- A concrete 4-slot bracket used to witness the service theorems. -/
def demoM1 : Match :=
  { id := "1W1", roundIndex := 0, matchIndex := 0,
    players := [some "a", some "b"], scores := [0, 0], nextMatchId := some "2W1" }

def demoM2 : Match :=
  { id := "1W2", roundIndex := 0, matchIndex := 1,
    players := [some "c", some "d"], scores := [0, 0], nextMatchId := some "2W1" }

def demoM3 : Match :=
  { id := "2W1", roundIndex := 1, matchIndex := 0,
    players := [none, none], scores := [0, 0], isGrandFinals := true }

def demoBracket : Bracket := ⟨[[demoM1, demoM2], [demoM3]]⟩

def demoTournament : Tournament :=
  { id := "t1", status := TournamentStatus.IN_PROGRESS, players := [],
    bracket := some demoBracket }

/-- Witness for C2: reporting `a` as winner of match `1W1` (even index)
    stores the winner and places `a` into slot 0 of `2W1`. -/
theorem updateMatchWinner_spec_witness :
    [demoTournament].find? (fun x => x.id == "t1") = some demoTournament ∧
    demoTournament.bracket = some demoBracket ∧
    findFirstMatch "1W1" demoBracket.winners = some demoM1 ∧
    demoM1.nextMatchId = some "2W1" ∧
    optTruthy demoM1.nextMatchId = true ∧
    findFirstMatch "2W1" demoBracket.winners = some demoM3 ∧
    2 ≤ demoM3.players.length ∧
    (∃ rounds2 : List (List Match),
      (updateMatchWinner [demoTournament] "t1" "1W1" "a" [2, 1]).1 =
        [demoTournament].map
          (fun x => if x.id = "t1" then { x with bracket := some ⟨rounds2⟩ } else x) ∧
      (∃ m2, findFirstMatch "1W1" rounds2 = some m2 ∧
        m2.winnerId = some "a" ∧ m2.scores = [2, 1] ∧ m2.justCompleted = true) ∧
      (∃ nm2, findFirstMatch "2W1" rounds2 = some nm2 ∧
        nm2.players = demoM3.players.set (demoM1.matchIndex % 2) (some "a") ∧
        nm2.players.getD (demoM1.matchIndex % 2) none = some "a")) :=
  ⟨by decide, by decide, by decide, by decide, by decide, by decide, by decide,
    updateMatchWinner_spec [demoTournament] "t1" "1W1" "a" [2, 1]
      demoTournament demoBracket demoM1 demoM3 "2W1"
      (by decide) (by decide) (by decide) (by decide) (by decide) (by decide) (by decide)⟩

/-! ### C9: reverseMatchWinner error cases and rollback semantics -/

theorem findFirstMatch_mem (mid : String) :
    ∀ (rounds : List (List Match)) (m : Match), findFirstMatch mid rounds = some m →
      ∃ round ∈ rounds, round.find? (fun x => x.id == mid) = some m
  | [], m, h => by cases h
  | round :: rest, m, h => by
    rw [findFirstMatch] at h
    rcases hy : round.find? (fun x => x.id == mid) with _ | mm <;> rw [hy] at h
    · obtain ⟨r2, hr2, hf⟩ := findFirstMatch_mem mid rest m h
      exact ⟨r2, by simp [hr2], hf⟩
    · cases h
      exact ⟨round, by simp, hy⟩

/-- C9: `reverseMatchWinner` throws exactly when the tournament or bracket is
    missing, the match is missing or has no (truthy) winner, or some next
    match already has a winner; a `throw` precedes any store, so an error
    leaves the stored list untouched.  On success the match's winner is
    nulled, its scores reset to `[0, 0]`, and the former winner's slot of the
    next match is nulled. -/
theorem reverseMatchWinner_spec (ts : List Tournament) (tid mid : String) :
    ((∃ e, reverseMatchWinner ts tid mid = Except.error e) ↔
      (ts.find? (fun x => x.id == tid) = none) ∨
      (∃ t, ts.find? (fun x => x.id == tid) = some t ∧ t.bracket = none) ∨
      (∃ t br, ts.find? (fun x => x.id == tid) = some t ∧ t.bracket = some br ∧
        findFirstMatch mid br.winners = none) ∨
      (∃ t br m, ts.find? (fun x => x.id == tid) = some t ∧ t.bracket = some br ∧
        findFirstMatch mid br.winners = some m ∧ optTruthy m.winnerId = false) ∨
      (∃ t br m nid, ts.find? (fun x => x.id == tid) = some t ∧ t.bracket = some br ∧
        findFirstMatch mid br.winners = some m ∧ optTruthy m.winnerId = true ∧
        m.nextMatchId = some nid ∧ optTruthy m.nextMatchId = true ∧
        ∃ round ∈ br.winners, ∃ nm, round.find? (fun x => x.id == nid) = some nm ∧
          optTruthy nm.winnerId = true)) ∧
    (∀ (t : Tournament) (br : Bracket) (m : Match) (w : String),
      ts.find? (fun x => x.id == tid) = some t → t.bracket = some br →
      findFirstMatch mid br.winners = some m → m.winnerId = some w →
      ∀ (ts2 : List Tournament) (t2 : Option Tournament),
        reverseMatchWinner ts tid mid = Except.ok (ts2, t2) →
        ∃ rounds2 : List (List Match),
          ts2 = ts.map
            (fun x => if x.id = tid then { x with bracket := some ⟨rounds2⟩ } else x) ∧
          (∃ m2, findFirstMatch mid rounds2 = some m2 ∧
            m2.winnerId = none ∧ m2.scores = [0, 0] ∧ m2.justCompleted = false) ∧
          (∀ (nid : String) (nm : Match), m.nextMatchId = some nid →
            optTruthy m.nextMatchId = true →
            findFirstMatch nid br.winners = some nm →
            ∃ nm2, findFirstMatch nid rounds2 = some nm2 ∧
              nm2 = clearSlotOfWinner w nm)) := by
  rcases hfind : ts.find? (fun x => x.id == tid) with _ | t
  · have hrev : reverseMatchWinner ts tid mid = Except.error "Tournament not found." := by
      simp only [reverseMatchWinner, hfind]
    constructor
    · constructor
      · intro _
        exact Or.inl hfind
      · intro _
        exact ⟨_, hrev⟩
    · intro t br m w hfind2
      rw [hfind] at hfind2
      cases hfind2
  · rcases hbr : t.bracket with _ | br
    · have hrev : reverseMatchWinner ts tid mid = Except.error "Tournament not found." := by
        simp only [reverseMatchWinner, hfind, hbr]
      constructor
      · constructor
        · intro _
          exact Or.inr (Or.inl ⟨t, hfind, hbr⟩)
        · intro _
          exact ⟨_, hrev⟩
      · intro t' br' m w hfind2 hbr2
        rw [hfind] at hfind2
        cases hfind2
        rw [hbr] at hbr2
        cases hbr2
    · rcases hm : findFirstMatch mid br.winners with _ | m
      · have hrev : reverseMatchWinner ts tid mid =
            Except.error "Match not found or it has no winner to reverse." := by
          simp only [reverseMatchWinner, hfind, hbr, hm]
        constructor
        · constructor
          · intro _
            exact Or.inr (Or.inr (Or.inl ⟨t, br, hfind, hbr, hm⟩))
          · intro _
            exact ⟨_, hrev⟩
        · intro t' br' m w hfind2 hbr2 hm2
          rw [hfind] at hfind2
          cases hfind2
          rw [hbr] at hbr2
          cases hbr2
          rw [hm] at hm2
          cases hm2
      · rcases hw : m.winnerId with _ | w0
        · have hrev : reverseMatchWinner ts tid mid =
              Except.error "Match not found or it has no winner to reverse." := by
            simp only [reverseMatchWinner, hfind, hbr, hm, hw]
          constructor
          · constructor
            · intro _
              exact Or.inr (Or.inr (Or.inr (Or.inl
                ⟨t, br, m, hfind, hbr, hm, by rw [hw]; rfl⟩)))
            · intro _
              exact ⟨_, hrev⟩
          · intro t' br' m' w hfind2 hbr2 hm2 hw2
            rw [hfind] at hfind2
            cases hfind2
            rw [hbr] at hbr2
            cases hbr2
            rw [hm] at hm2
            cases hm2
            rw [hw] at hw2
            cases hw2
        · by_cases hemp : (w0 == "") = true
          · have hrev : reverseMatchWinner ts tid mid =
                Except.error "Match not found or it has no winner to reverse." := by
              simp only [reverseMatchWinner, hfind, hbr, hm, hw, hemp, if_true]
            have hfalse : optTruthy m.winnerId = false := by
              rw [hw]
              show (!(w0 == "")) = false
              rw [hemp]
              rfl
            constructor
            · constructor
              · intro _
                exact Or.inr (Or.inr (Or.inr (Or.inl
                  ⟨t, br, m, hfind, hbr, hm, hfalse⟩)))
              · intro _
                exact ⟨_, hrev⟩
            · intro t' br' m' w hfind2 hbr2 hm2 hw2 ts2 t2 hok
              rw [hrev] at hok
              cases hok
          · have htruthy : optTruthy m.winnerId = true := by
              rw [hw]
              show (!(w0 == "")) = true
              rw [Bool.eq_false_iff.mpr (fun hc => hemp hc)]
              rfl
            by_cases htr : optTruthy m.nextMatchId = true
            · rcases hnx : m.nextMatchId with _ | nid
              · rw [hnx] at htr
                cases htr
              · have htr2 : optTruthy (some nid) = true := by
                  rw [← hnx]
                  exact htr
                rcases hchk : checkNextRounds nid w0 br.winners with e | rounds1
                · have hrev : reverseMatchWinner ts tid mid = Except.error e := by
                    simp only [reverseMatchWinner, hfind, hbr, hm, hw, hemp,
                      Bool.false_eq_true, if_false, hnx, htr2, if_true, hchk]
                  obtain ⟨round, hround, nm, hnm, hnmw⟩ :=
                    (checkNextRounds_error_iff nid w0 br.winners).mp ⟨e, hchk⟩
                  constructor
                  · constructor
                    · intro _
                      exact Or.inr (Or.inr (Or.inr (Or.inr
                        ⟨t, br, m, nid, hfind, hbr, hm, htruthy, hnx, htr,
                          round, hround, nm, hnm, hnmw⟩)))
                    · intro _
                      exact ⟨_, hrev⟩
                  · intro t' br' m' w hfind2 hbr2 hm2 hw2 ts2 t2 hok
                    rw [hrev] at hok
                    cases hok
                · have hrev : reverseMatchWinner ts tid mid =
                      Except.ok (updateTournament ts tid
                        { bracket := some (some
                          ⟨updFirstMatch mid clearWinner rounds1⟩) }) := by
                    simp only [reverseMatchWinner, hfind, hbr, hm, hw, hemp,
                      Bool.false_eq_true, if_false, hnx, htr2, if_true, hchk]
                  have hne : nid ≠ mid := by
                    intro heq
                    subst heq
                    obtain ⟨round, hround, hfound⟩ :=
                      findFirstMatch_mem nid br.winners m hm
                    obtain ⟨e, he⟩ := (checkNextRounds_error_iff nid w0 br.winners).mpr
                      ⟨round, hround, m, hfound, htruthy⟩
                    rw [he] at hchk
                    cases hchk
                  obtain ⟨hK1, hK2⟩ := checkNextRounds_ok nid w0 br.winners rounds1 hchk
                  have hFM := findFirstMatch_updFirstMatch mid clearWinner
                    clearWinner_id rounds1
                  constructor
                  · constructor
                    · rintro ⟨e, he⟩
                      rw [hrev] at he
                      cases he
                    · rintro (h | ⟨t', h1, h2⟩ | ⟨t', br', h1, h2, h3⟩ |
                        ⟨t', br', m', h1, h2, h3, h4⟩ |
                        ⟨t', br', m', nid', h1, h2, h3, h4, h5, h6, round, h7, nm, h8, h9⟩)
                      · rw [hfind] at h
                        cases h
                      · rw [hfind] at h1
                        cases h1
                        rw [hbr] at h2
                        cases h2
                      · rw [hfind] at h1
                        cases h1
                        rw [hbr] at h2
                        cases h2
                        rw [hm] at h3
                        cases h3
                      · rw [hfind] at h1
                        cases h1
                        rw [hbr] at h2
                        cases h2
                        rw [hm] at h3
                        cases h3
                        rw [htruthy] at h4
                        cases h4
                      · rw [hfind] at h1
                        cases h1
                        rw [hbr] at h2
                        cases h2
                        rw [hm] at h3
                        cases h3
                        rw [hnx] at h5
                        cases h5
                        obtain ⟨e, he⟩ := (checkNextRounds_error_iff nid w0 br.winners).mpr
                          ⟨round, h7, nm, h8, h9⟩
                        rw [he] at hchk
                        cases hchk
                  · intro t' br' m' w hfind2 hbr2 hm2 hw2 ts2 t2 hok
                    rw [hfind] at hfind2
                    cases hfind2
                    rw [hbr] at hbr2
                    cases hbr2
                    rw [hm] at hm2
                    cases hm2
                    rw [hw] at hw2
                    cases hw2
                    rw [hrev] at hok
                    cases hok
                    refine ⟨updFirstMatch mid clearWinner rounds1, ?_, ?_, ?_⟩
                    · exact updateTournament_bracket_fst ts tid _
                    · refine ⟨clearWinner m, ?_, rfl, rfl, rfl⟩
                      rw [hFM.1, hK1 mid (fun hc => hne hc.symm), hm]
                      rfl
                    · intro nid' nm hnx2 _ hnm2
                      rw [hnx] at hnx2
                      cases hnx2
                      refine ⟨clearSlotOfWinner w0 nm, ?_, rfl⟩
                      rw [hFM.2 nid hne, hK2, hnm2]
                      rfl
            · have hstep : (if optTruthy m.nextMatchId = true then
                  (match m.nextMatchId with
                  | some nid => checkNextRounds nid w0 br.winners
                  | none => Except.ok br.winners)
                else Except.ok br.winners) = Except.ok br.winners := by
                rw [if_neg htr]
              have hrev : reverseMatchWinner ts tid mid =
                  Except.ok (updateTournament ts tid
                    { bracket := some (some
                      ⟨updFirstMatch mid clearWinner br.winners⟩) }) := by
                simp only [reverseMatchWinner, hfind, hbr, hm, hw, hemp,
                  Bool.false_eq_true, if_false, htr]
              have hFM := findFirstMatch_updFirstMatch mid clearWinner
                clearWinner_id br.winners
              constructor
              · constructor
                · rintro ⟨e, he⟩
                  rw [hrev] at he
                  cases he
                · rintro (h | ⟨t', h1, h2⟩ | ⟨t', br', h1, h2, h3⟩ |
                    ⟨t', br', m', h1, h2, h3, h4⟩ |
                    ⟨t', br', m', nid', h1, h2, h3, h4, h5, h6, round, h7, nm, h8, h9⟩)
                  · rw [hfind] at h
                    cases h
                  · rw [hfind] at h1
                    cases h1
                    rw [hbr] at h2
                    cases h2
                  · rw [hfind] at h1
                    cases h1
                    rw [hbr] at h2
                    cases h2
                    rw [hm] at h3
                    cases h3
                  · rw [hfind] at h1
                    cases h1
                    rw [hbr] at h2
                    cases h2
                    rw [hm] at h3
                    cases h3
                    rw [htruthy] at h4
                    cases h4
                  · rw [hfind] at h1
                    cases h1
                    rw [hbr] at h2
                    cases h2
                    rw [hm] at h3
                    cases h3
                    exact absurd h6 htr
              · intro t' br' m' w hfind2 hbr2 hm2 hw2 ts2 t2 hok
                rw [hfind] at hfind2
                cases hfind2
                rw [hbr] at hbr2
                cases hbr2
                rw [hm] at hm2
                cases hm2
                rw [hw] at hw2
                cases hw2
                rw [hrev] at hok
                cases hok
                refine ⟨updFirstMatch mid clearWinner br.winners, ?_, ?_, ?_⟩
                · exact updateTournament_bracket_fst ts tid _
                · refine ⟨clearWinner m, ?_, rfl, rfl, rfl⟩
                  rw [hFM.1, hm]
                  rfl
                · intro nid' nm hnx2 htr2 hnm2
                  rw [htr2] at htr
                  cases htr rfl

/-! ### C10: start / revert transitions of updateTournament -/

/-- C10: starting an `Open for Registration` tournament with fewer than 2
    players leaves it open with its bracket untouched; with 2 or more players
    it moves to `In Progress` with a freshly generated bracket; reverting an
    `In Progress` tournament to `Open for Registration` wipes the bracket. -/
theorem updateTournament_transitions (ts : List Tournament) (id : String)
    (u : TournamentUpdates) (i : Nat) (t : Tournament)
    (hmem : ts[i]? = some t) (hid : t.id = id)
    (hupl : u.players = none) :
    (t.status = TournamentStatus.REGISTRATION_OPEN →
      u.status = some TournamentStatus.IN_PROGRESS →
      u.bracket = none →
      t.players.length < 2 →
      ∃ t2, (updateTournament ts id u).1[i]? = some t2 ∧
        t2.status = TournamentStatus.REGISTRATION_OPEN ∧ t2.bracket = t.bracket) ∧
    (t.status = TournamentStatus.REGISTRATION_OPEN →
      u.status = some TournamentStatus.IN_PROGRESS →
      2 ≤ t.players.length →
      ∃ t2, (updateTournament ts id u).1[i]? = some t2 ∧
        t2.status = TournamentStatus.IN_PROGRESS ∧
        t2.bracket = some (generateBracket (sortBySeed t.players))) ∧
    (t.status = TournamentStatus.IN_PROGRESS →
      u.status = some TournamentStatus.REGISTRATION_OPEN →
      ∃ t2, (updateTournament ts id u).1[i]? = some t2 ∧
        t2.status = TournamentStatus.REGISTRATION_OPEN ∧ t2.bracket = none) := by
  have hmap : (updateTournament ts id u).1[i]? = some (transformTournament u t) := by
    rw [updateTournament]
    simp only [List.getElem?_map, hmem, Option.map_some']
    rw [if_pos hid]
  have hpp : (applyUpdates t u).players = t.players := by
    rw [applyUpdates]
    simp [hupl]
  refine ⟨?_, ?_, ?_⟩
  · intro hst hus hub hlt
    have hps : (applyUpdates t u).status = TournamentStatus.IN_PROGRESS := by
      rw [applyUpdates]
      simp [hus]
    have hpb : (applyUpdates t u).bracket = t.bracket := by
      rw [applyUpdates]
      simp [hub]
    refine ⟨transformTournament u t, hmap, ?_, ?_⟩ <;>
      · simp only [transformTournament]
        rw [if_pos ⟨hst, hps⟩, if_neg (by rw [hpp]; omega)]
        simp [hst, hpb]
  · intro hst hus hge
    have hps : (applyUpdates t u).status = TournamentStatus.IN_PROGRESS := by
      rw [applyUpdates]
      simp [hus]
    refine ⟨transformTournament u t, hmap, ?_, ?_⟩ <;>
      · simp only [transformTournament]
        rw [if_pos ⟨hst, hps⟩, if_pos (by rw [hpp]; omega)]
        simp [hps, hpp]
  · intro hst hus
    have hps : (applyUpdates t u).status = TournamentStatus.REGISTRATION_OPEN := by
      rw [applyUpdates]
      simp [hus]
    have hcond1 : ¬(t.status = TournamentStatus.REGISTRATION_OPEN ∧
        (applyUpdates t u).status = TournamentStatus.IN_PROGRESS) := by
      rintro ⟨h1, _⟩
      rw [hst] at h1
      cases h1
    refine ⟨transformTournament u t, hmap, ?_, ?_⟩
    · simp only [transformTournament]
      rw [if_neg hcond1, if_pos ⟨hst, hps⟩]
      simp [hps]
    · simp only [transformTournament]
      rw [if_neg hcond1, if_pos ⟨hst, hps⟩]

def demoOpenT : Tournament :=
  { id := "t1", status := TournamentStatus.REGISTRATION_OPEN,
    players := [⟨"a", "", "", 1, ""⟩, ⟨"b", "", "", 2, ""⟩] }

def demoStartU : TournamentUpdates := { status := some TournamentStatus.IN_PROGRESS }

/-- Witness for C10 at a concrete one-tournament store. -/
theorem updateTournament_transitions_witness :
    ([demoOpenT] : List Tournament)[0]? = some demoOpenT ∧
    demoOpenT.id = "t1" ∧ demoStartU.players = none ∧
    ((demoOpenT.status = TournamentStatus.REGISTRATION_OPEN →
      demoStartU.status = some TournamentStatus.IN_PROGRESS →
      demoStartU.bracket = none →
      demoOpenT.players.length < 2 →
      ∃ t2, (updateTournament [demoOpenT] "t1" demoStartU).1[0]? = some t2 ∧
        t2.status = TournamentStatus.REGISTRATION_OPEN ∧ t2.bracket = demoOpenT.bracket) ∧
    (demoOpenT.status = TournamentStatus.REGISTRATION_OPEN →
      demoStartU.status = some TournamentStatus.IN_PROGRESS →
      2 ≤ demoOpenT.players.length →
      ∃ t2, (updateTournament [demoOpenT] "t1" demoStartU).1[0]? = some t2 ∧
        t2.status = TournamentStatus.IN_PROGRESS ∧
        t2.bracket = some (generateBracket (sortBySeed demoOpenT.players))) ∧
    (demoOpenT.status = TournamentStatus.IN_PROGRESS →
      demoStartU.status = some TournamentStatus.REGISTRATION_OPEN →
      ∃ t2, (updateTournament [demoOpenT] "t1" demoStartU).1[0]? = some t2 ∧
        t2.status = TournamentStatus.REGISTRATION_OPEN ∧ t2.bracket = none)) :=
  ⟨by decide, by decide, by decide,
    updateTournament_transitions [demoOpenT] "t1" demoStartU 0 demoOpenT
      (by decide) (by decide) (by decide)⟩

end Spec2Proof
